import Mathlib

/-!
Verification of the Quantum Hub package-validation and app/version logic.

This file gives a shallow embedding, in Lean 4, of the parts of the
`quantum-hub` repository that the checked properties speak about:

* `services/shared/utils/package.py` — zip-package and manifest validation
  (`extract_manifest_from_zip`, `validate_manifest`, `extract_qasm_files`,
  `validate_package`);
* `services/shared/utils/api.py` — the JSON response envelope
  (`create_response`, `create_error_response`, `raise_http_exception`);
* `services/quantum_app_service/app/api/endpoints/quantum_apps.py` — the
  endpoint handlers' error paths, together with
  `app/core/security.py`'s `get_current_user_id`;
* the app/version/release state transitions of
  `services/quantum_app_service/app/services/quantum_app_service.py` and
  `services/project_service/app/services/project_service.py`, modelled as a
  transition system over an explicit database state.

Python values that flow through these functions (parsed JSON, manifest
dictionaries, response dictionaries) are modelled by the inductive type
`JValue`; `JValue.null` plays the role of Python's `None` (which is also what
`json.loads` produces for JSON `null`).  Python dictionaries are association
lists with first-match lookup and Python's update-in-place-or-append
assignment semantics.  Python exceptions are modelled with `Except PyError`.
-/

namespace QHub

/-- A Python/JSON value as it appears in parsed manifests and responses.
`null` stands for Python `None`; numbers are restricted to integers, which is
all the embedded code ever inspects. -/
inductive JValue where
  | null : JValue
  | bool : Bool → JValue
  | num : Int → JValue
  | str : String → JValue
  | arr : List JValue → JValue
  | obj : List (String × JValue) → JValue

/-- An association list with string keys: the model of a Python dict. -/
abbrev AList (α : Type) := List (String × α)

/-- The model of a manifest / response dictionary. -/
abbrev Dict := AList JValue

/-- Python `d[k]` / `d.get(k)` read: the first (for a real dict, the only)
binding of `k`. -/
def dget {α : Type} : AList α → String → Option α
  | [], _ => none
  | p :: rest, k => if p.1 = k then some p.2 else dget rest k

/-- Python `d[k] = v`: replace the binding of `k` in place if `k` is present,
otherwise append the new binding at the end (dict insertion order). -/
def dset {α : Type} : AList α → String → α → AList α
  | [], k, v => [(k, v)]
  | p :: rest, k, v => if p.1 = k then (k, v) :: rest else p :: dset rest k v

/-- Python truthiness of a `JValue` (`if manifest:` etc.): `None`, `False`,
`0`, the empty string, list and dict are falsy. -/
def pyTruthy : JValue → Bool
  | .null => false
  | .bool b => b
  | .num n => n != 0
  | .str s => s != ""
  | .arr xs => !xs.isEmpty
  | .obj kvs => !kvs.isEmpty

/-- Whether a value is a Python `str` (`isinstance(v, str)`). -/
def JValue.isStr : JValue → Bool
  | .str _ => true
  | _ => false

/-- Python's `v is None` test. -/
def JValue.isNull : JValue → Bool
  | .null => true
  | _ => false

mutual

/-- Python `==` between two values (as used between JSON-derived values). -/
def JValue.beq : JValue → JValue → Bool
  | .null, .null => true
  | .bool a, .bool b => a == b
  | .num a, .num b => a == b
  | .str a, .str b => a == b
  | .arr a, .arr b => JValue.beqArr a b
  | .obj a, .obj b => JValue.beqObj a b
  | _, _ => false

/-- Elementwise Python `==` on lists. -/
def JValue.beqArr : List JValue → List JValue → Bool
  | [], [] => true
  | x :: xs, y :: ys => JValue.beq x y && JValue.beqArr xs ys
  | _, _ => false

/-- Entrywise Python `==` on dicts (order-sensitive; the embedded code only
ever compares dict-free values, where this coincides with Python). -/
def JValue.beqObj : List (String × JValue) → List (String × JValue) → Bool
  | [], [] => true
  | x :: xs, y :: ys => x.1 == y.1 && JValue.beq x.2 y.2 && JValue.beqObj xs ys
  | _, _ => false

end

/-- A Python exception as observed by the embedded code: `ValueError` (the
one exception type `validate_package` catches) carries its message; the
uncaught kinds (`TypeError`, `AttributeError`) are kept abstract. -/
inductive PyError where
  | valueError : String → PyError
  | typeError : PyError
  | attributeError : PyError
deriving DecidableEq

/-! ### `services/shared/utils/package.py` -/

/-- The contents of one file stored in a zip archive, abstracted by the two
observations the code makes of it: `json` is the result of `json.loads` on
its bytes (`none` when that raises `JSONDecodeError`), `text` the result of
decoding it as UTF-8 (`none` when that raises `UnicodeDecodeError`). -/
structure FileData where
  json : Option JValue
  text : Option String

/-- The byte string handed to `validate_package`, abstracted to what
`zipfile.ZipFile` makes of it: either not a zip archive at all
(`zipfile.BadZipFile`), or the archive's list of (filename, contents)
entries in archive order. -/
inductive PackageData where
  | badZip : PackageData
  | zip : List (String × FileData) → PackageData

/-- `zip_file.read(name)`: `zipfile` resolves a name through `NameToInfo`,
where a later entry with the same name overwrites an earlier one, so the
last matching entry is read. -/
def zipRead (entries : List (String × FileData)) (name : String) : Option FileData :=
  (entries.reverse.find? (fun p => p.1 = name)).map (·.2)

/-- `extract_manifest_from_zip` (package.py:13-44): return the parsed
`quantum_manifest.json`, `none` when the archive has no such entry, and
raise `ValueError` on a bad zip or unparseable JSON. -/
def extract_manifest_from_zip (package_data : PackageData) :
    Except PyError (Option JValue) :=
  match package_data with
  | .badZip => .error (.valueError "Invalid zip file")
  | .zip entries =>
    -- if 'quantum_manifest.json' not in zip_file.namelist(): return None
    match zipRead entries "quantum_manifest.json" with
    | none => .ok none
    | some fd =>
      -- json.loads(manifest_data); JSONDecodeError becomes ValueError
      match fd.json with
      | none => .error (.valueError "Invalid JSON in quantum_manifest.json")
      | some v => .ok (some v)

/-- The `field_mapping` dict of `validate_manifest` (package.py:62-68), in
its insertion order. -/
def field_mapping : List (String × String) :=
  [("app_name", "name"), ("version", "version_number"),
   ("application_type", "type"), ("quantum_cli_sdk_version", "sdk_used"),
   ("app_description", "description")]

/-- The loop of package.py:72-74: walk `field_mapping` in order and copy each
alias that is present in the manifest to its target name.  The five target
keys are pairwise distinct, so the dict built by the loop is exactly this
concatenation. -/
def normalizeManifest (m : Dict) : Dict :=
  (match dget m "app_name" with | some v => [("name", v)] | none => []) ++
  (match dget m "version" with | some v => [("version_number", v)] | none => []) ++
  (match dget m "application_type" with | some v => [("type", v)] | none => []) ++
  (match dget m "quantum_cli_sdk_version" with | some v => [("sdk_used", v)] | none => []) ++
  (match dget m "app_description" with | some v => [("description", v)] | none => [])

/-- The required-fields loop of package.py:80-84 over
`['name', 'type', 'version_number', 'sdk_used']`; for each missing field the
message names the original manifest field (the first `field_mapping` key
that maps to it). -/
def missingFieldErrors (nm : Dict) : List String :=
  (if (dget nm "name").isSome then [] else ["Missing required field: app_name"]) ++
  (if (dget nm "type").isSome then [] else ["Missing required field: application_type"]) ++
  (if (dget nm "version_number").isSome then [] else ["Missing required field: version"]) ++
  (if (dget nm "sdk_used").isSome then [] else ["Missing required field: quantum_cli_sdk_version"])

/-- One type check of package.py:87-97: if `field` is present in the
normalized manifest but not a string, one error naming the original field. -/
def typeFieldError (nm : Dict) (field orig : String) : List String :=
  match dget nm field with
  | some v => if v.isStr then [] else ["Field '" ++ orig ++ "' must be a string"]
  | none => []

/-- `validate_manifest` (package.py:47-109).  The result carries the mutated
manifest (the function adds `_normalized`, and `qasm_files` when
`application_source_file` is a string), the validity flag and the error
list.  On a non-dict argument the Python function always raises `TypeError`:
for numbers, booleans and `None` at the first `in` test (not iterable); for
strings and lists either at the string subscript `manifest[source_field]` or
at the item assignment `manifest['_normalized'] = ...`. -/
def validate_manifest (manifest : JValue) :
    Except PyError (JValue × Bool × List String) :=
  match manifest with
  | .obj m =>
    let normalized := normalizeManifest m
    -- manifest['_normalized'] = normalized_manifest
    let m1 := dset m "_normalized" (.obj normalized)
    let errs :=
      missingFieldErrors normalized ++
      typeFieldError normalized "name" "app_name" ++
      typeFieldError normalized "type" "application_type" ++
      typeFieldError normalized "version_number" "version" ++
      typeFieldError normalized "sdk_used" "quantum_cli_sdk_version"
    -- check for application_source_file (package.py:100-106)
    match dget m "application_source_file" with
    | none =>
      let errs := errs ++ ["Missing required field: application_source_file"]
      .ok (.obj m1, errs.isEmpty, errs)
    | some (.str f) =>
      -- manifest['qasm_files'] = [manifest['application_source_file']]
      .ok (.obj (dset m1 "qasm_files" (.arr [.str f])), errs.isEmpty, errs)
    | some _ =>
      let errs := errs ++ ["Field 'application_source_file' must be a string"]
      .ok (.obj m1, errs.isEmpty, errs)
  | _ => .error .typeError

/-- The loop of `extract_qasm_files` (package.py:134-138) over the archive's
entries: every entry whose name ends in `.qasm` is read (by name, hence the
`zipRead`) and decoded as UTF-8; a `UnicodeDecodeError` becomes
`ValueError`. -/
def extractQasmLoop (entries : List (String × FileData)) :
    List (String × FileData) → AList String → Except PyError (AList String)
  | [], acc => .ok acc
  | p :: rest, acc =>
    if p.1.endsWith ".qasm" then
      match (zipRead entries p.1).bind (·.text) with
      | some content => extractQasmLoop entries rest (dset acc p.1 content)
      | none => .error (.valueError "Unable to decode .qasm file as UTF-8")
    else extractQasmLoop entries rest acc

/-- `extract_qasm_files` (package.py:112-144): map every `.qasm` filename of
the archive to its decoded contents. -/
def extract_qasm_files (package_data : PackageData) :
    Except PyError (AList String) :=
  match package_data with
  | .badZip => .error (.valueError "Invalid zip file")
  | .zip entries => extractQasmLoop entries entries []

/-- Python `str(v)` for the values that can reach the f-string of
package.py:184 (hashable values: anything but lists and dicts, which raise
`TypeError` at the dict-membership test just before). -/
def pyStrOf : JValue → String
  | .str s => s
  | .num n => toString n
  | .bool b => if b then "True" else "False"
  | .null => "None"
  | .arr _ => "unhashable"
  | .obj _ => "unhashable"

/-- The loop of package.py:182-184: for each value of the manifest's
`qasm_files` entry, test `qasm_file not in qasm_files` (dict membership: a
list or dict value is unhashable and raises `TypeError`; a hashable
non-string value is never equal to a string key) and record one error per
missing file. -/
def qasmRefErrors (qasm_files : AList String) :
    List JValue → Except PyError (List String)
  | [] => .ok []
  | item :: rest =>
    match item with
    | .arr _ => .error .typeError
    | .obj _ => .error .typeError
    | .str s =>
      match qasmRefErrors qasm_files rest with
      | .error e => .error e
      | .ok tail =>
        .ok ((if (dget qasm_files s).isSome then []
              else ["Specified QASM file not found in package: " ++ s]) ++ tail)
    | other =>
      match qasmRefErrors qasm_files rest with
      | .error e => .error e
      | .ok tail =>
        .ok (["Specified QASM file not found in package: " ++ pyStrOf other] ++ tail)

/-- Python iteration over a value (`for qasm_file in manifest['qasm_files']`):
a list yields its elements, a string its characters, a dict its keys;
anything else is not iterable and raises `TypeError`. -/
def pyIter : JValue → Except PyError (List JValue)
  | .arr xs => .ok xs
  | .str s => .ok (s.data.map (fun c => .str c.toString))
  | .obj kvs => .ok (kvs.map (fun p => .str p.1))
  | _ => .error .typeError

/-- `validate_package` (package.py:147-191).  The `try` block catches only
`ValueError`, turning it into `(False, errors + [str(e)], None)` with the
errors accumulated so far; any other exception (the `TypeError`s of
`validate_manifest` on a truthy non-dict manifest and of the `qasm_files`
reference loop) propagates.  Note that a falsy parsed manifest (such as the
empty JSON object `{}`) takes the `if not manifest` branch and is reported
as a missing manifest. -/
def validate_package (package_data : PackageData) :
    Except PyError (Bool × List String × Option JValue) :=
  match extract_manifest_from_zip package_data with
  | .error (.valueError msg) => .ok (false, [msg], none)
  | .error e => .error e
  | .ok none => .ok (false, ["Missing quantum_manifest.json in package"], none)
  | .ok (some mv) =>
    if pyTruthy mv = false then
      .ok (false, ["Missing quantum_manifest.json in package"], none)
    else
      match validate_manifest mv with
      | .error (.valueError msg) => .ok (false, [msg], none)
      | .error e => .error e
      | .ok (manifest, is_valid, manifest_errors) =>
        let errors := if is_valid then [] else manifest_errors
        match extract_qasm_files package_data with
        | .error (.valueError msg) => .ok (false, errors ++ [msg], none)
        | .error e => .error e
        | .ok qasm_files =>
          let errors := errors ++
            (if qasm_files.isEmpty then ["No .qasm files found in package"] else [])
          -- if manifest and 'qasm_files' in manifest: ... (the manifest out of a
          -- successful validate_manifest is always a truthy dict)
          let refCheck : Except PyError (List String) :=
            match manifest with
            | .obj mm =>
              if pyTruthy manifest = false then .ok [] else
              match dget mm "qasm_files" with
              | some qv =>
                match pyIter qv with
                | .error e => .error e
                | .ok items => qasmRefErrors qasm_files items
              | none => .ok []
            | _ => .ok []
          match refCheck with
          | .error e => .error e
          | .ok refErrs =>
            let errors := errors ++ refErrs
            .ok (errors.isEmpty, errors, some manifest)

/-! ### `services/shared/utils/api.py` -/

/-- `create_response` (api.py:51-78): build the success envelope and drop
every key whose value is `None` (`errors` is always `None` here). -/
def create_response (data message meta : JValue) (success : Bool) : Dict :=
  ([("success", JValue.bool success), ("message", message), ("data", data),
    ("errors", JValue.null), ("meta", meta)]).filter (fun p => !p.2.isNull)

/-- `create_error_response` (api.py:81-113): the error envelope; `None`
values are dropped from the error object only. -/
def create_error_response (message : String) (status_code : Nat) (error : String)
    (details : JValue) : Dict :=
  let error_obj : Dict :=
    ([("status_code", JValue.num status_code), ("error", JValue.str error),
      ("message", JValue.str message),
      ("details", details)]).filter (fun p => !p.2.isNull)
  [("success", JValue.bool false), ("errors", JValue.arr [JValue.obj error_obj]),
   ("data", JValue.null)]

/-- A raised `fastapi.HTTPException`, as far as the response is concerned:
the HTTP status code and the `detail` payload (FastAPI serializes the error
response body as the JSON object with the single key `detail`). -/
structure HTTPError where
  status_code : Nat
  detail : JValue

/-- `raise_http_exception` (api.py:116-144): raise an `HTTPException` whose
detail is `error_content["errors"][0]`.  The `errors` entry built by
`create_error_response` is always a one-element array, so the `.null`
fallback of the match is unreachable. -/
def raise_http_exception (message : String) (status_code : Nat) (error : String)
    (details : JValue) : HTTPError :=
  let error_content := create_error_response message status_code error details
  { status_code := status_code,
    detail :=
      match dget error_content "errors" with
      | some (.arr (e :: _)) => e
      | _ => .null }

/-! ### `quantum_app_service` security dependency and endpoint handlers

Each endpoint of `app/api/endpoints/quantum_apps.py` resolves the
`get_current_user_id` dependency (`app/core/security.py`) and then runs its
handler body inside `try/except`.  The handlers are modelled as functions of
the outcome of their service calls: `.error msg` stands for a non-HTTP
exception with `str(e) = msg` escaping the service call, which the bare
`except Exception` clause converts to a 500 through `raise_http_exception`.
Handlers whose body itself calls `raise_http_exception` re-raise those
`HTTPException`s unchanged (their `except` does `isinstance` re-raise, or
the exception is raised outside any further wrapping). -/

/-- `get_current_user_id` (security.py:19-63): any failure of token
decoding or subject extraction is caught by the outer `except Exception`
and re-raised as a 401 whose `detail` is a plain string. -/
def get_current_user_id (token : Except String Nat) : Except HTTPError Nat :=
  match token with
  | .ok uid => .ok uid
  | .error e =>
    .error { status_code := 401,
             detail := .str ("Could not validate credentials: " ++ e) }

mutual

/-- Python `repr` of a JSON-derived value (string escaping not modelled):
only used for the message text of re-wrapped exceptions, which no property
inspects. -/
def pyRepr : JValue → String
  | .null => "None"
  | .bool b => if b then "True" else "False"
  | .num n => toString n
  | .str s => "'" ++ s ++ "'"
  | .arr xs => "[" ++ pyReprArr xs ++ "]"
  | .obj kvs => "\x7b" ++ pyReprObj kvs ++ "\x7d"

/-- Comma-separated `repr` of list elements. -/
def pyReprArr : List JValue → String
  | [] => ""
  | [x] => pyRepr x
  | x :: rest => pyRepr x ++ ", " ++ pyReprArr rest

/-- Comma-separated `repr` of dict entries. -/
def pyReprObj : List (String × JValue) → String
  | [] => ""
  | [p] => "'" ++ p.1 ++ "': " ++ pyRepr p.2
  | p :: rest => "'" ++ p.1 ++ "': " ++ pyRepr p.2 ++ ", " ++ pyReprObj rest

end

/-- `str(e)` of a caught `HTTPException` (Starlette renders it as
`"{status_code}: {detail}"`). -/
def strOfHTTPError (h : HTTPError) : String :=
  toString h.status_code ++ ": " ++ pyRepr h.detail

/-- Abbreviation for the `raise_http_exception(message=..., status_code=...)`
calls of quantum_apps.py, which all leave `error` and `details` at their
defaults (`"bad_request"`, `None`). -/
def raiseDefault (message : String) (status_code : Nat) : HTTPError :=
  raise_http_exception message status_code "bad_request" JValue.null

/-- `get_quantum_apps_endpoint` body (quantum_apps.py:30-81): returns the
serialized app list directly (no envelope); any exception becomes a 500. -/
def get_quantum_apps_endpoint_body (svc : Except String JValue) :
    Except HTTPError JValue :=
  match svc with
  | .ok apps => .ok apps
  | .error e => .error (raiseDefault ("Failed to retrieve quantum apps: " ++ e) 500)

/-- `create_quantum_app_endpoint` body (quantum_apps.py:84-132). -/
def create_quantum_app_endpoint_body (svc : Except String JValue) :
    Except HTTPError JValue :=
  match svc with
  | .ok app =>
    .ok (.obj (create_response app (.str "Quantum app created successfully") .null true))
  | .error e => .error (raiseDefault ("Failed to create quantum app: " ++ e) 500)

/-- `get_quantum_app_endpoint` body (quantum_apps.py:135-243): `none` means
the app lookup returned no row. -/
def get_quantum_app_endpoint_body (svc : Except String (Option JValue)) :
    Except HTTPError JValue :=
  match svc with
  | .ok none => .error (raiseDefault "Quantum app not found" 404)
  | .ok (some app) =>
    .ok (.obj (create_response app (.str "Quantum app retrieved successfully") .null true))
  | .error e => .error (raiseDefault ("Failed to retrieve quantum app: " ++ e) 500)

/-- `update_quantum_app_endpoint` body (quantum_apps.py:246-304). -/
def update_quantum_app_endpoint_body (svc : Except String (Option JValue)) :
    Except HTTPError JValue :=
  match svc with
  | .ok none =>
    .error (raiseDefault
      "Quantum app not found or you don't have permission to update it" 404)
  | .ok (some app) =>
    .ok (.obj (create_response app (.str "Quantum app updated successfully") .null true))
  | .error e => .error (raiseDefault ("Failed to update quantum app: " ++ e) 500)

/-- `delete_quantum_app_endpoint` body (quantum_apps.py:307-343). -/
def delete_quantum_app_endpoint_body (svc : Except String Bool) :
    Except HTTPError JValue :=
  match svc with
  | .ok false =>
    .error (raiseDefault
      "Quantum app not found or you don't have permission to delete it" 404)
  | .ok true =>
    .ok (.obj (create_response .null (.str "Quantum app deleted successfully") .null true))
  | .error e => .error (raiseDefault ("Failed to delete quantum app: " ++ e) 500)

/-- `get_app_versions_endpoint` body (quantum_apps.py:346-406): `none` means
the app lookup returned no row; on success the serialized version list is
returned directly. -/
def get_app_versions_endpoint_body (svc : Except String (Option JValue)) :
    Except HTTPError JValue :=
  match svc with
  | .ok none => .error (raiseDefault "Quantum app not found" 404)
  | .ok (some versions) => .ok versions
  | .error e => .error (raiseDefault ("Failed to retrieve app versions: " ++ e) 500)

/-- The outcome of a two-stage lookup (app row, then a second row). -/
inductive Fetch2 where
  | noApp : Fetch2
  | noSecond : Fetch2
  | found : JValue → Fetch2

/-- `get_app_version_endpoint` body (quantum_apps.py:409-477): 404 when the
app is missing, 404 when the version is missing or belongs to another app. -/
def get_app_version_endpoint_body (svc : Except String Fetch2) :
    Except HTTPError JValue :=
  match svc with
  | .ok .noApp => .error (raiseDefault "Quantum app not found" 404)
  | .ok .noSecond => .error (raiseDefault "App version not found" 404)
  | .ok (.found v) =>
    .ok (.obj (create_response v (.str "App version retrieved successfully") .null true))
  | .error e => .error (raiseDefault ("Failed to retrieve app version: " ++ e) 500)

/-- `download_package_endpoint` body (quantum_apps.py:480-531): on success a
raw binary response. -/
def download_package_endpoint_body (svc : Except String Fetch2) :
    Except HTTPError JValue :=
  match svc with
  | .ok .noApp => .error (raiseDefault "Quantum app not found" 404)
  | .ok .noSecond => .error (raiseDefault "Package not found" 404)
  | .ok (.found content) => .ok content
  | .error e => .error (raiseDefault ("Failed to download package: " ++ e) 500)

/-- `upload_app_package_endpoint` body (quantum_apps.py:534-598).  Its
`except Exception` has no `isinstance` re-raise, so the 500 raised for a
`None` result is itself caught and wrapped once more (still a 500 envelope,
with `str(e)` of the inner `HTTPException` in the message). -/
def upload_app_package_endpoint_body (svc : Except String (Option JValue)) :
    Except HTTPError JValue :=
  match svc with
  | .ok (some app) =>
    .ok (.obj (create_response app
      (.str "Quantum app package uploaded successfully") .null true))
  | .ok none =>
    .error (raiseDefault
      ("Failed to upload package: " ++
        strOfHTTPError (raiseDefault "Failed to upload package" 500)) 500)
  | .error e => .error (raiseDefault ("Failed to upload package: " ++ e) 500)

/-- A whole endpoint as the client sees it: the security dependency first,
then the handler body. -/
def runEndpoint {α : Type} (token : Except String Nat)
    (body : Nat → Except HTTPError α) : Except HTTPError α :=
  match get_current_user_id token with
  | .error h => .error h
  | .ok uid => body uid

/-- Whether an error body's `detail` is the JSON error envelope with the
three mandatory fields. -/
def isErrorEnvelope (detail : JValue) : Bool :=
  match detail with
  | .obj kvs =>
    (dget kvs "status_code").isSome && (dget kvs "error").isSome &&
      (dget kvs "message").isSome
  | _ => false

/-! ### The app/version/release state transitions

`quantum_app_service.py` and `project_service.py` are modelled as a
transition system over an explicit database state.  Row ids (UUIDs in the
code, pairwise distinct) are modelled by a counter, so ids also record
creation order.  An app row keeps its two structural columns (`developer_id`
and `latest_version_id`) and the version row its three (`quantum_app_id`,
`package_data`, `is_latest`) as record fields; the remaining content columns
are kept as a key/value record `fields`, written only at row creation —
except for apps, whose `fields` the `update` statement of
`update_quantum_app` rewrites.  No statement in the services ever updates a
version row other than create_app_version's `is_latest = False` flip
(quantum_app_service.py:255-263). -/

/-- A `quantum_app` row. -/
structure AppRow where
  id : Nat
  developer_id : Nat
  latest_version_id : Option Nat
  fields : Dict

/-- An `app_version` row. -/
structure VersionRow where
  id : Nat
  quantum_app_id : Nat
  fields : Dict
  package_data : Option PackageData
  is_latest : Bool

/-- A `project` row. -/
structure ProjectRow where
  id : Nat
  user_id : Nat
  quantum_app_id : Option Nat
  name : String
  description : Option String
  repo : Option String

/-- The database state seen by the two services. -/
structure DB where
  users : List Nat
  projects : List ProjectRow
  apps : List AppRow
  versions : List VersionRow
  nextId : Nat

/-- `get_quantum_app`: first (only) row with the given id. -/
def findApp (db : DB) (app_id : Nat) : Option AppRow :=
  db.apps.find? (fun a => a.id == app_id)

/-- `get_app_version`: first (only) row with the given id. -/
def findVersion (db : DB) (version_id : Nat) : Option VersionRow :=
  db.versions.find? (fun v => v.id == version_id)

/-- The content columns set by the `QuantumApp(...)` constructor call of
`create_quantum_app` (quantum_app_service.py:85-98): required `name` and
`type` (the callers always supply them; a missing key would be a
`KeyError`), `.get` defaults for the rest, `status=["DRAFT"]`. -/
def appFieldsOfData (app_data : Dict) : Dict :=
  [("name", (dget app_data "name").getD .null),
   ("description", (dget app_data "description").getD .null),
   ("type", (dget app_data "type").getD .null),
   ("status", .arr [.str "DRAFT"]),
   ("visibility", (dget app_data "visibility").getD (.str "PRIVATE")),
   ("api_url", (dget app_data "api_url").getD .null),
   ("documentation_url", (dget app_data "documentation_url").getD .null),
   ("license_type", (dget app_data "license_type").getD .null),
   ("license_url", (dget app_data "license_url").getD .null),
   ("readme_content", (dget app_data "readme_content").getD .null),
   ("repository_url", (dget app_data "repository_url").getD .null)]

/-- `create_quantum_app` (quantum_app_service.py:70-105). -/
def create_quantum_app (db : DB) (user_id : Nat) (app_data : Dict) : AppRow × DB :=
  let app : AppRow :=
    { id := db.nextId, developer_id := user_id, latest_version_id := none,
      fields := appFieldsOfData app_data }
  (app, { db with apps := db.apps ++ [app], nextId := db.nextId + 1 })

/-- `update_quantum_app` (quantum_app_service.py:108-140): requires the app
to exist and belong to the user; drops `None` values and updates the
content columns (the update payloads — `QuantumAppUpdate` and the manifest
extraction of `upload_app_package` — carry only the ten content columns,
never `latest_version_id`). -/
def update_quantum_app (db : DB) (app_id user_id : Nat) (app_data : Dict) :
    Option AppRow × DB :=
  match findApp db app_id with
  | none => (none, db)
  | some app =>
    if app.developer_id ≠ user_id then (none, db)
    else
      let update_data := app_data.filter (fun p => !p.2.isNull)
      if update_data.isEmpty then (some app, db)
      else
        let app2 : AppRow :=
          { app with fields := update_data.foldl (fun fs p => dset fs p.1 p.2) app.fields }
        (some app2,
         { db with apps := db.apps.map (fun a => if a.id = app_id then app2 else a) })

/-- `delete_quantum_app` (quantum_app_service.py:143-169): the service
deletes only the app row; its versions disappear through the
`ondelete="CASCADE"` foreign key of `app_version.quantum_app_id`. -/
def delete_quantum_app (db : DB) (app_id user_id : Nat) : Bool × DB :=
  match findApp db app_id with
  | none => (false, db)
  | some app =>
    if app.developer_id ≠ user_id then (false, db)
    else
      (true,
       { db with apps := db.apps.filter (fun a => a.id != app_id),
                 versions := db.versions.filter (fun v => v.quantum_app_id != app_id) })

/-- The columns set by the `AppVersion(...)` constructor call of
`create_app_version` (quantum_app_service.py:233-248). -/
def versionFieldsOfData (version_data : Dict) (source_repo : JValue) : Dict :=
  [("version_number", (dget version_data "version_number").getD .null),
   ("sdk_used", (dget version_data "sdk_used").getD .null),
   ("input_schema", (dget version_data "input_schema").getD .null),
   ("output_schema", (dget version_data "output_schema").getD .null),
   ("preferred_platform", (dget version_data "preferred_platform").getD .null),
   ("preferred_device_id", (dget version_data "preferred_device_id").getD .null),
   ("number_of_qubits", (dget version_data "number_of_qubits").getD .null),
   ("package_path", (dget version_data "package_path").getD .null),
   ("source_repo", source_repo),
   ("release_notes", (dget version_data "release_notes").getD .null),
   ("status", .str "DRAFT")]

/-- `create_app_version` (quantum_app_service.py:212-271): insert the new
version with `is_latest=True`, flip `is_latest` to `False` on every other
version of the app, and point the app's `latest_version_id` at the new
row. -/
def create_app_version (db : DB) (app_id : Nat) (version_data : Dict)
    (package_data : Option PackageData) : Option VersionRow × DB :=
  match findApp db app_id with
  | none => (none, db)
  | some app =>
    let v : VersionRow :=
      { id := db.nextId, quantum_app_id := app_id,
        fields := versionFieldsOfData version_data
          ((dget app.fields "repository_url").getD .null),
        package_data := package_data, is_latest := true }
    (some v,
     { db with
        versions := (db.versions ++ [v]).map (fun w =>
          if w.quantum_app_id = app_id ∧ w.id ≠ v.id then
            { w with is_latest := false } else w),
        apps := db.apps.map (fun a =>
          if a.id = app_id then { a with latest_version_id := some v.id } else a),
        nextId := db.nextId + 1 })

/-- `get_project` (project_service.py:64-82): the project must belong to the
user. -/
def get_project (db : DB) (user_id project_id : Nat) : Option ProjectRow :=
  db.projects.find? (fun p => p.id == project_id && p.user_id == user_id)

/-- The `ProjectRelease` request schema (project_service schemas). -/
structure ReleaseData where
  name : String
  description : Option String
  type : String
  version_number : String
  sdk_used : String
  visibility : String
  input_schema : Option JValue
  output_schema : Option JValue
  preferred_platform : Option String
  preferred_device_id : Option String
  number_of_qubits : Option Int
  package_path : Option String

/-- A nullable string column value. -/
def jOfOptStr : Option String → JValue
  | some s => .str s
  | none => .null

/-- A nullable integer column value. -/
def jOfOptInt : Option Int → JValue
  | some n => .num n
  | none => .null

/-- `release_project` (project_service.py:148-223): always creates a fresh
quantum app (even when the project already links to one), inserts its one
version with `is_latest=True`, points `latest_version_id` at it (the model
builds the app row with the pointer the code sets two commits later), and
links the project to the new app. -/
def release_project (db : DB) (user_id project_id : Nat) (rd : ReleaseData)
    (package_data : Option PackageData) : Option AppRow × DB :=
  match get_project db user_id project_id with
  | none => (none, db)
  | some project =>
    let appId := db.nextId
    let v : VersionRow :=
      { id := db.nextId + 1, quantum_app_id := appId,
        fields :=
          [("version_number", .str rd.version_number),
           ("sdk_used", .str rd.sdk_used),
           ("input_schema", (rd.input_schema).getD .null),
           ("output_schema", (rd.output_schema).getD .null),
           ("preferred_platform", jOfOptStr rd.preferred_platform),
           ("preferred_device_id", jOfOptStr rd.preferred_device_id),
           ("number_of_qubits", jOfOptInt rd.number_of_qubits),
           ("package_path", jOfOptStr rd.package_path),
           ("source_repo", jOfOptStr project.repo),
           ("status", .str "DRAFT")],
        package_data := package_data, is_latest := true }
    let app : AppRow :=
      { id := appId, developer_id := user_id, latest_version_id := some v.id,
        fields :=
          [("name", .str rd.name), ("description", jOfOptStr rd.description),
           ("type", .str rd.type), ("status", .arr [.str "DRAFT"]),
           ("visibility", .str rd.visibility),
           ("repository_url", jOfOptStr project.repo)] }
    (some app,
     { db with
        apps := db.apps ++ [app], versions := db.versions ++ [v],
        projects := db.projects.map (fun p =>
          if p.id = project_id then { p with quantum_app_id := some appId } else p),
        nextId := db.nextId + 2 })

/-- Python `a or b`. -/
def pyOr (a b : JValue) : JValue := if pyTruthy a then a else b

/-- Python `d.get(k)`: `None` when the key is absent. -/
def dgetPy (m : Dict) (k : String) : JValue := (dget m k).getD .null

/-- Python `v.lower()`: `AttributeError` on a non-string. -/
def pyLower : JValue → Except PyError String
  | .str s => .ok s.toLower
  | _ => .error .attributeError

/-- The manifest-to-row extraction of `upload_app_package`
(quantum_app_service.py:319-370): build the `app_data` and `version_data`
dicts from the validated manifest `mm` (whose `_normalized` entry is always
the dict stored by `validate_manifest`). -/
def uploadExtract (mm : Dict) (filename : String) :
    Except PyError (Dict × Dict) := do
  let normalized : Dict :=
    match dgetPy mm "_normalized" with | .obj nm => nm | _ => []
  let app_type := pyOr (dgetPy normalized "type") (dgetPy mm "application_type")
  let app_type_s ← if pyTruthy app_type then pyLower app_type else pure "other"
  let visibility := (dget mm "visibility").getD (.str "private")
  let visibility_s ← if pyTruthy visibility then pyLower visibility else pure "private"
  let license := (dget mm "license").getD (.str "mit")
  let license_s ← if pyTruthy license then pyLower license else pure "mit"
  let app_data : Dict :=
    [("name", pyOr (dgetPy normalized "name") (dgetPy mm "app_name")),
     ("description", pyOr (dgetPy normalized "description") (dgetPy mm "app_description")),
     ("type", .str app_type_s),
     ("visibility", .str visibility_s),
     ("api_url", dgetPy mm "api_url"),
     ("documentation_url", dgetPy mm "documentation_url"),
     ("license_type", .str license_s),
     ("license_url", dgetPy mm "license_url"),
     ("readme_content", dgetPy mm "readme"),
     ("repository_url", dgetPy mm "repository_url")]
  let sdk := pyOr (dgetPy normalized "sdk_used")
    ((dget mm "quantum_cli_sdk_version").getD (.str "quantum_cli"))
  let sdk_s ← if pyTruthy sdk then pyLower sdk else pure "quantum_cli"
  let version_data : Dict :=
    [("version_number", pyOr (dgetPy normalized "version_number") (dgetPy mm "version")),
     ("sdk_used", .str sdk_s),
     ("input_schema", dgetPy mm "input"),
     ("output_schema", dgetPy mm "expected_output"),
     ("preferred_platform", dgetPy mm "preferred_hardware"),
     ("preferred_device_id", .null),
     ("number_of_qubits", .null),
     ("package_path", .str filename),
     ("release_notes", .null)]
  pure (app_data, version_data)

/-- `upload_app_package` (quantum_app_service.py:294-392): validate the
package, check the user, extract the rows from the manifest, then update
the existing same-named app of the user (and add a version) or create a
fresh app (and add a version); the refreshed app row is returned.  The
`.attributeError` and `.typeError` fallbacks mark branches the source
cannot reach (a vanished app, a non-dict validated manifest). -/
def upload_app_package (db : DB) (user_id : Nat) (package_data : PackageData)
    (filename : String) : Except PyError (AppRow × DB) :=
  match validate_package package_data with
  | .error e => .error e
  | .ok (is_valid, errors, manifestOpt) =>
    if is_valid = false then
      .error (.valueError ("Invalid package: " ++ String.intercalate ", " errors))
    else
      match manifestOpt with
      | none =>
        .error (.valueError ("Invalid package: " ++ String.intercalate ", " errors))
      | some mv =>
        if pyTruthy mv = false then
          .error (.valueError ("Invalid package: " ++ String.intercalate ", " errors))
        else if db.users.contains user_id = false then
          .error (.valueError "User not found")
        else
          match mv with
          | .obj mm =>
            match uploadExtract mm filename with
            | .error e => .error e
            | .ok (app_data, version_data) =>
              let existing := (db.apps.filter (fun a => a.developer_id == user_id)).find?
                (fun a => JValue.beq ((dget a.fields "name").getD .null)
                  (dgetPy app_data "name"))
              match existing with
              | some ex =>
                let r1 := update_quantum_app db ex.id user_id app_data
                match r1.1 with
                | none => .error .attributeError
                | some qa =>
                  let r2 := create_app_version r1.2 qa.id version_data (some package_data)
                  match findApp r2.2 qa.id with
                  | some qa2 => .ok (qa2, r2.2)
                  | none => .error .attributeError
              | none =>
                let r1 := create_quantum_app db user_id app_data
                let r2 := create_app_version r1.2 r1.1.id version_data (some package_data)
                match findApp r2.2 r1.1.id with
                | some qa2 => .ok (qa2, r2.2)
                | none => .error .attributeError
          | _ => .error .typeError

/-- The states reachable through the service operations.  User registration
and project CRUD (auth_service, project_service) never touch the app or
version tables; they are over-approximated by `sideTables`, which rewrites
those two tables arbitrarily. -/
inductive Reach : DB → Prop where
  | init : Reach { users := [], projects := [], apps := [], versions := [], nextId := 0 }
  | sideTables (users : List Nat) (projects : List ProjectRow) {db : DB} :
      Reach db → Reach { db with users := users, projects := projects }
  | appCreate (user_id : Nat) (app_data : Dict) {db : DB} :
      Reach db → Reach (create_quantum_app db user_id app_data).2
  | appUpdate (app_id user_id : Nat) (app_data : Dict) {db : DB} :
      Reach db → Reach (update_quantum_app db app_id user_id app_data).2
  | appDelete (app_id user_id : Nat) {db : DB} :
      Reach db → Reach (delete_quantum_app db app_id user_id).2
  | versionCreate (app_id : Nat) (version_data : Dict) (package_data : Option PackageData)
      {db : DB} : Reach db → Reach (create_app_version db app_id version_data package_data).2
  | projectRelease (user_id project_id : Nat) (rd : ReleaseData)
      (package_data : Option PackageData) {db : DB} :
      Reach db → Reach (release_project db user_id project_id rd package_data).2
  | packageUpload (user_id : Nat) (package_data : PackageData) (filename : String)
      (app : AppRow) (db2 : DB) {db : DB} : Reach db →
      upload_app_package db user_id package_data filename = .ok (app, db2) → Reach db2

/-- The per-app shape of the latest-version invariant over a version table:
an app with no `latest_version_id` has no versions; otherwise the pointer
names a version of the app that is flagged `is_latest`, every other version
of the app is unflagged, and the pointed-to version is the most recently
created one (row ids record creation order in the model). -/
def appLatestOk (versions : List VersionRow) (a : AppRow) : Prop :=
  (a.latest_version_id = none → ∀ v ∈ versions, v.quantum_app_id ≠ a.id) ∧
  (∀ vid, a.latest_version_id = some vid →
    ∃ v ∈ versions, v.quantum_app_id = a.id ∧ v.id = vid ∧ v.is_latest = true ∧
      ∀ w ∈ versions, w.quantum_app_id = a.id → w.id ≠ v.id →
        w.is_latest = false ∧ w.id < v.id)

/-- The inductive invariant: id bounds, distinct version ids, and
`appLatestOk` for every app. -/
def dbInv (db : DB) : Prop :=
  (∀ a ∈ db.apps, a.id < db.nextId) ∧
  (∀ v ∈ db.versions, v.id < db.nextId ∧ v.quantum_app_id < db.nextId) ∧
  (db.versions.map (·.id)).Nodup ∧
  (∀ a ∈ db.apps, appLatestOk db.versions a)

/-- The package and metadata columns of a version row: everything except
the `is_latest` relationship flag. -/
def versionMeta (v : VersionRow) : Nat × Dict × Option PackageData :=
  (v.quantum_app_id, v.fields, v.package_data)

/-! ### Statement-side definitions for the checked properties -/

/-- The error messages the specification expects for one manifest field:
none when the field is present with a string value, one `Missing required
field` message naming the original field when it is absent, one
`must be a string` message when it is present with a non-string value. -/
def fieldErr (m : Dict) (orig : String) : List String :=
  match dget m orig with
  | none => ["Missing required field: " ++ orig]
  | some v => if v.isStr then [] else ["Field '" ++ orig ++ "' must be a string"]

/-- The field is present with a string value. -/
def manifestFieldOk (m : Dict) (orig : String) : Prop :=
  ∃ s, dget m orig = some (JValue.str s)

/-- The `_normalized` dictionary as the specification describes it: `name`,
`version_number`, `type`, `sdk_used` and `description` mapped from their
manifest aliases, restricted to the aliases present in the manifest. -/
def normalizedOfClaim (m : Dict) : Dict :=
  (match dget m "app_name" with | some v => [("name", v)] | none => []) ++
  (match dget m "version" with | some v => [("version_number", v)] | none => []) ++
  (match dget m "application_type" with | some v => [("type", v)] | none => []) ++
  (match dget m "quantum_cli_sdk_version" with | some v => [("sdk_used", v)] | none => []) ++
  (match dget m "app_description" with | some v => [("description", v)] | none => [])

/-- What the specification requires of an error response: a conventional
status code and the JSON error envelope with `status_code`, `error` and
`message`. -/
def errorWellFormed (h : HTTPError) : Prop :=
  (h.status_code = 400 ∨ h.status_code = 401 ∨ h.status_code = 403 ∨
   h.status_code = 404 ∨ h.status_code = 500) ∧ isErrorEnvelope h.detail = true

/-- A Python value is hashable (usable in a dict membership test): anything
but a list or a dict. -/
def JValue.isHashable : JValue → Bool
  | .arr _ => false
  | .obj _ => false
  | _ => true

def qasmRefSafe : JValue → Bool
  | .arr xs => xs.all JValue.isHashable
  | .str _ => true
  | .obj _ => true
  | _ => false

def manifestValueSafe (v : JValue) : Prop :=
  pyTruthy v = false ∨
  (∃ mm : Dict, v = .obj mm ∧
    ((∃ f, dget mm "application_source_file" = some (.str f)) ∨
     (match dget mm "qasm_files" with
      | none => True
      | some qv => qasmRefSafe qv = true)))

def manifestSafe : PackageData → Prop
  | .badZip => True
  | .zip entries =>
    match zipRead entries "quantum_manifest.json" with
    | none => True
    | some fd =>
      match fd.json with
      | none => True
      | some v => manifestValueSafe v

/-- A manifest that already carries a `qasm_files` key of its own. -/
def cexManifest : Dict :=
  [("qasm_files", .str "old"), ("app_name", .str "bell"), ("version", .str "1.0"),
   ("application_type", .str "circuit"), ("quantum_cli_sdk_version", .str "0.1"),
   ("application_source_file", .str "bell.qasm")]

/-- What `validate_manifest` turns `cexManifest` into: the pre-existing
`qasm_files` value is overwritten in place. -/
def cexManifestAfter : Dict :=
  [("qasm_files", .arr [.str "bell.qasm"]), ("app_name", .str "bell"),
   ("version", .str "1.0"), ("application_type", .str "circuit"),
   ("quantum_cli_sdk_version", .str "0.1"), ("application_source_file", .str "bell.qasm"),
   ("_normalized", .obj [("name", .str "bell"), ("version_number", .str "1.0"),
     ("type", .str "circuit"), ("sdk_used", .str "0.1")])]

/-- The zip entries of the C2 counterexample: the manifest names
`prog.txt`, and the archive does contain a file of that name — but it does
not end in `.qasm`. -/
def cexQasmManifest : Dict :=
  [("app_name", .str "bell"), ("version", .str "1.0"), ("application_type", .str "circuit"),
   ("quantum_cli_sdk_version", .str "0.1"), ("application_source_file", .str "prog.txt")]

def cexQasmEntries : List (String × FileData) :=
  [("quantum_manifest.json", { json := some (.obj cexQasmManifest), text := none }),
   ("prog.txt", { json := none, text := some "OPENQASM 2.0;" })]

/-- The mutated manifest `validate_package` hands back for the C2
counterexample. -/
def cexQasmManifestAfter : Dict :=
  [("app_name", .str "bell"), ("version", .str "1.0"), ("application_type", .str "circuit"),
   ("quantum_cli_sdk_version", .str "0.1"), ("application_source_file", .str "prog.txt"),
   ("_normalized", .obj [("name", .str "bell"), ("version_number", .str "1.0"),
     ("type", .str "circuit"), ("sdk_used", .str "0.1")]),
   ("qasm_files", .arr [.str "prog.txt"])]

/-- A well-formed package for the C2 witness. -/
def wQasmManifest : Dict :=
  [("app_name", .str "bell"), ("version", .str "1.0"), ("application_type", .str "circuit"),
   ("quantum_cli_sdk_version", .str "0.1"), ("application_source_file", .str "bell.qasm")]

def wQasmFD : FileData := { json := some (.obj wQasmManifest), text := some "json" }

def wQasmEntries : List (String × FileData) :=
  [("quantum_manifest.json", wQasmFD),
   ("bell.qasm", { json := none, text := some "OPENQASM 2.0;" })]

/-! ### Dictionary lemmas -/

theorem dget_dset_self {α : Type} (d : AList α) (k : String) (v : α) :
    dget (dset d k v) k = some v := by
  induction d with
  | nil => simp [dget, dset]
  | cons p rest ih =>
    by_cases h : p.1 = k
    · simp [dget, dset, h]
    · simp [dget, dset, h, ih]

theorem dget_dset_ne {α : Type} (d : AList α) (k k' : String) (v : α)
    (h : k' ≠ k) : dget (dset d k v) k' = dget d k' := by
  induction d with
  | nil => simp [dget, dset, h, Ne.symm h]
  | cons p rest ih =>
    by_cases hp : p.1 = k
    · subst hp
      simp [dget, dset, Ne.symm h]
    · by_cases hp' : p.1 = k'
      · simp [dget, dset, hp, hp', h]
      · simp [dget, dset, hp, hp', ih]

theorem dget_append {α : Type} (xs ys : AList α) (k : String) :
    dget (xs ++ ys) k = ((dget xs k).rec (dget ys k) (fun v => some v)) := by
  induction xs with
  | nil => simp [dget]
  | cons p rest ih =>
    by_cases h : p.1 = k <;> simp [dget, h, ih]

/-! ### Lemmas about the normalized manifest -/

theorem norm_dget_name (m : Dict) :
    dget (normalizeManifest m) "name" = dget m "app_name" := by
  unfold normalizeManifest
  cases dget m "app_name" <;> cases dget m "version" <;>
    cases dget m "application_type" <;> cases dget m "quantum_cli_sdk_version" <;>
    cases dget m "app_description" <;> simp [dget_append, dget]

theorem norm_dget_version_number (m : Dict) :
    dget (normalizeManifest m) "version_number" = dget m "version" := by
  unfold normalizeManifest
  cases dget m "app_name" <;> cases dget m "version" <;>
    cases dget m "application_type" <;> cases dget m "quantum_cli_sdk_version" <;>
    cases dget m "app_description" <;> simp [dget_append, dget]

theorem norm_dget_type (m : Dict) :
    dget (normalizeManifest m) "type" = dget m "application_type" := by
  unfold normalizeManifest
  cases dget m "app_name" <;> cases dget m "version" <;>
    cases dget m "application_type" <;> cases dget m "quantum_cli_sdk_version" <;>
    cases dget m "app_description" <;> simp [dget_append, dget]

theorem norm_dget_sdk_used (m : Dict) :
    dget (normalizeManifest m) "sdk_used" = dget m "quantum_cli_sdk_version" := by
  unfold normalizeManifest
  cases dget m "app_name" <;> cases dget m "version" <;>
    cases dget m "application_type" <;> cases dget m "quantum_cli_sdk_version" <;>
    cases dget m "app_description" <;> simp [dget_append, dget]

/-! ### Lemmas for the manifest error list -/

theorem interleave_perm {α : Type} (m1 m2 m3 m4 t1 t2 t3 t4 s : List α) :
    (m1 ++ m2 ++ m3 ++ m4 ++ t1 ++ t2 ++ t3 ++ t4 ++ s).Perm
      ((m1 ++ t1) ++ (m2 ++ t2) ++ (m3 ++ t3) ++ (m4 ++ t4) ++ s) := by
  rw [← Multiset.coe_eq_coe]
  simp only [← Multiset.coe_add]
  abel

theorem perm_nil_iff {α : Type} {l r : List α} (h : l.Perm r) : l = [] ↔ r = [] := by
  constructor
  · intro hh; subst hh; exact h.symm.eq_nil
  · intro hh; subst hh; exact h.eq_nil

theorem fieldErr_nil_iff (m : Dict) (orig : String) :
    fieldErr m orig = [] ↔ manifestFieldOk m orig := by
  unfold fieldErr manifestFieldOk
  cases hx : dget m orig with
  | none => simp
  | some v => cases v <;> simp [JValue.isStr]

theorem fieldErr_app_name (m : Dict) :
    fieldErr m "app_name" =
      (if (dget m "app_name").isSome then [] else ["Missing required field: app_name"]) ++
        typeFieldError (normalizeManifest m) "name" "app_name" := by
  unfold fieldErr typeFieldError
  rw [norm_dget_name]
  cases hx : dget m "app_name" with
  | none => rfl
  | some v => cases v <;> rfl

theorem fieldErr_application_type (m : Dict) :
    fieldErr m "application_type" =
      (if (dget m "application_type").isSome then []
        else ["Missing required field: application_type"]) ++
        typeFieldError (normalizeManifest m) "type" "application_type" := by
  unfold fieldErr typeFieldError
  rw [norm_dget_type]
  cases hx : dget m "application_type" with
  | none => rfl
  | some v => cases v <;> rfl

theorem fieldErr_version (m : Dict) :
    fieldErr m "version" =
      (if (dget m "version").isSome then [] else ["Missing required field: version"]) ++
        typeFieldError (normalizeManifest m) "version_number" "version" := by
  unfold fieldErr typeFieldError
  rw [norm_dget_version_number]
  cases hx : dget m "version" with
  | none => rfl
  | some v => cases v <;> rfl

theorem fieldErr_sdk (m : Dict) :
    fieldErr m "quantum_cli_sdk_version" =
      (if (dget m "quantum_cli_sdk_version").isSome then []
        else ["Missing required field: quantum_cli_sdk_version"]) ++
        typeFieldError (normalizeManifest m) "sdk_used" "quantum_cli_sdk_version" := by
  unfold fieldErr typeFieldError
  rw [norm_dget_sdk_used]
  cases hx : dget m "quantum_cli_sdk_version" with
  | none => rfl
  | some v => cases v <;> rfl

/-- The error list of `validate_manifest` on a dict is, up to order, the
concatenation of the five per-field message lists, and the validity flag is
its emptiness test. -/
theorem validate_manifest_errors_perm (m : Dict) (mm : JValue) (ok : Bool)
    (errs : List String) (h : validate_manifest (.obj m) = .ok (mm, ok, errs)) :
    errs.Perm (fieldErr m "app_name" ++ fieldErr m "application_type" ++
      fieldErr m "version" ++ fieldErr m "quantum_cli_sdk_version" ++
      fieldErr m "application_source_file") ∧ ok = errs.isEmpty := by
  simp only [validate_manifest] at h
  split at h <;>
    (simp only [Except.ok.injEq, Prod.mk.injEq] at h
     obtain ⟨hmm, hok, herrs⟩ := h
     subst herrs)
  case h_1 heq =>
    have he5 : fieldErr m "application_source_file" =
        ["Missing required field: application_source_file"] := by
      unfold fieldErr; rw [heq]; rfl
    refine ⟨?_, hok.symm⟩
    rw [fieldErr_app_name, fieldErr_application_type, fieldErr_version, fieldErr_sdk, he5]
    simp only [missingFieldErrors]
    rw [norm_dget_name, norm_dget_type, norm_dget_version_number, norm_dget_sdk_used]
    exact interleave_perm _ _ _ _ _ _ _ _ _
  case h_2 f heq =>
    have he5 : fieldErr m "application_source_file" = [] := by
      unfold fieldErr; rw [heq]; rfl
    refine ⟨?_, hok.symm⟩
    rw [fieldErr_app_name, fieldErr_application_type, fieldErr_version, fieldErr_sdk, he5]
    simp only [missingFieldErrors]
    rw [norm_dget_name, norm_dget_type, norm_dget_version_number, norm_dget_sdk_used]
    simpa using interleave_perm
      (if (dget m "app_name").isSome then [] else ["Missing required field: app_name"])
      (if (dget m "application_type").isSome then []
        else ["Missing required field: application_type"])
      (if (dget m "version").isSome then [] else ["Missing required field: version"])
      (if (dget m "quantum_cli_sdk_version").isSome then []
        else ["Missing required field: quantum_cli_sdk_version"])
      (typeFieldError (normalizeManifest m) "name" "app_name")
      (typeFieldError (normalizeManifest m) "type" "application_type")
      (typeFieldError (normalizeManifest m) "version_number" "version")
      (typeFieldError (normalizeManifest m) "sdk_used" "quantum_cli_sdk_version")
      ([] : List String)
  case h_3 val hne heq =>
    have hstr : val.isStr = false := by
      cases val with
      | str s => exact absurd rfl (hne s)
      | _ => rfl
    have he5 : fieldErr m "application_source_file" =
        ["Field 'application_source_file' must be a string"] := by
      unfold fieldErr; rw [heq]; simp [hstr]
    refine ⟨?_, hok.symm⟩
    rw [fieldErr_app_name, fieldErr_application_type, fieldErr_version, fieldErr_sdk, he5]
    simp only [missingFieldErrors]
    rw [norm_dget_name, norm_dget_type, norm_dget_version_number, norm_dget_sdk_used]
    exact interleave_perm _ _ _ _ _ _ _ _ _

/-- C1: `validate_manifest` returns `(True, [])` exactly when `app_name`,
`application_type`, `version`, `quantum_cli_sdk_version` and
`application_source_file` are all present with string values; otherwise it
returns `False` together with exactly one error message per missing or
non-string field, each naming the original manifest field (the error list
is a permutation of the per-field messages). -/
theorem validate_manifest_required_and_typed (m : Dict) (mm : JValue) (ok : Bool)
    (errs : List String) (h : validate_manifest (.obj m) = .ok (mm, ok, errs)) :
    (ok = true ↔ errs = []) ∧
    ((ok = true ∧ errs = []) ↔
      (manifestFieldOk m "app_name" ∧ manifestFieldOk m "application_type" ∧
       manifestFieldOk m "version" ∧ manifestFieldOk m "quantum_cli_sdk_version" ∧
       manifestFieldOk m "application_source_file")) ∧
    errs.Perm (fieldErr m "app_name" ++ fieldErr m "application_type" ++
      fieldErr m "version" ++ fieldErr m "quantum_cli_sdk_version" ++
      fieldErr m "application_source_file") := by
  have key := validate_manifest_errors_perm m mm ok errs h
  have hA : ok = true ↔ errs = [] := by
    rw [key.2]
    exact List.isEmpty_iff
  have hnil : errs = [] ↔
      (manifestFieldOk m "app_name" ∧ manifestFieldOk m "application_type" ∧
       manifestFieldOk m "version" ∧ manifestFieldOk m "quantum_cli_sdk_version" ∧
       manifestFieldOk m "application_source_file") := by
    rw [perm_nil_iff key.1]
    simp only [List.append_eq_nil, fieldErr_nil_iff, and_assoc]
  refine ⟨hA, ?_, key.1⟩
  constructor
  · rintro ⟨-, he⟩
    exact hnil.mp he
  · intro hg
    have he := hnil.mpr hg
    exact ⟨hA.mpr he, he⟩

/-- C1 witness: the empty manifest, where all five fields are missing. -/
theorem validate_manifest_required_and_typed_witness :
    (false = true ↔
      (["Missing required field: app_name", "Missing required field: application_type",
        "Missing required field: version", "Missing required field: quantum_cli_sdk_version",
        "Missing required field: application_source_file"] : List String) = []) ∧
    ((false = true ∧
      (["Missing required field: app_name", "Missing required field: application_type",
        "Missing required field: version", "Missing required field: quantum_cli_sdk_version",
        "Missing required field: application_source_file"] : List String) = []) ↔
      (manifestFieldOk [] "app_name" ∧ manifestFieldOk [] "application_type" ∧
       manifestFieldOk [] "version" ∧ manifestFieldOk [] "quantum_cli_sdk_version" ∧
       manifestFieldOk [] "application_source_file")) ∧
    (["Missing required field: app_name", "Missing required field: application_type",
      "Missing required field: version", "Missing required field: quantum_cli_sdk_version",
      "Missing required field: application_source_file"] : List String).Perm
      (fieldErr [] "app_name" ++ fieldErr [] "application_type" ++
        fieldErr [] "version" ++ fieldErr [] "quantum_cli_sdk_version" ++
        fieldErr [] "application_source_file") :=
  validate_manifest_required_and_typed [] (JValue.obj [("_normalized", JValue.obj [])])
    false _ rfl

/-- C5: after `validate_manifest`, the manifest's `_normalized` entry is
exactly the dictionary described by the specification (the five target
names mapped from their aliases, restricted to the aliases present). -/
theorem validate_manifest_normalized_entry (m : Dict) (mm : JValue) (ok : Bool)
    (errs : List String) (h : validate_manifest (.obj m) = .ok (mm, ok, errs)) :
    ∃ mo : Dict, mm = .obj mo ∧
      dget mo "_normalized" = some (.obj (normalizedOfClaim m)) := by
  simp only [validate_manifest] at h
  split at h <;>
    (simp only [Except.ok.injEq, Prod.mk.injEq] at h
     obtain ⟨hmm, hok, herrs⟩ := h)
  case h_1 heq =>
    exact ⟨_, hmm.symm, by rw [dget_dset_self]; rfl⟩
  case h_2 f heq =>
    refine ⟨_, hmm.symm, ?_⟩
    rw [dget_dset_ne _ _ _ _ (by decide), dget_dset_self]
    rfl
  case h_3 val hne heq =>
    exact ⟨_, hmm.symm, by rw [dget_dset_self]; rfl⟩

/-- C5 witness: a manifest carrying only `app_name`. -/
theorem validate_manifest_normalized_entry_witness :
    ∃ mo : Dict,
      (JValue.obj [("app_name", JValue.str "x"),
        ("_normalized", JValue.obj [("name", JValue.str "x")])]) = .obj mo ∧
      dget mo "_normalized" =
        some (.obj (normalizedOfClaim [("app_name", JValue.str "x")])) :=
  validate_manifest_normalized_entry [("app_name", JValue.str "x")] _ false
    ["Missing required field: application_type", "Missing required field: version",
     "Missing required field: quantum_cli_sdk_version",
     "Missing required field: application_source_file"] rfl

/-- C9 (amended): `validate_manifest` mutates its argument — afterwards the
manifest carries `_normalized`, and `qasm_files` equal to the one-element
list holding `application_source_file` whenever that field is present as a
string; every key other than `_normalized` and `qasm_files` keeps its
original value (a pre-existing `_normalized` or `qasm_files` entry is
overwritten, which is what the counterexample exhibits). -/
theorem validate_manifest_mutation (m : Dict) (mm : JValue) (ok : Bool)
    (errs : List String) (h : validate_manifest (.obj m) = .ok (mm, ok, errs)) :
    ∃ mo : Dict, mm = .obj mo ∧
      (dget mo "_normalized").isSome = true ∧
      (∀ f, dget m "application_source_file" = some (.str f) →
        dget mo "qasm_files" = some (.arr [.str f])) ∧
      (∀ k, k ≠ "_normalized" → k ≠ "qasm_files" → dget mo k = dget m k) := by
  simp only [validate_manifest] at h
  split at h <;>
    (simp only [Except.ok.injEq, Prod.mk.injEq] at h
     obtain ⟨hmm, hok, herrs⟩ := h)
  case h_1 heq =>
    refine ⟨_, hmm.symm, by rw [dget_dset_self]; rfl, ?_, ?_⟩
    · intro f hf
      rw [heq] at hf
      exact absurd hf (by simp)
    · intro k h1 h2
      rw [dget_dset_ne _ _ _ _ h1]
  case h_2 f heq =>
    refine ⟨_, hmm.symm, ?_, ?_, ?_⟩
    · rw [dget_dset_ne _ _ _ _ (by decide), dget_dset_self]
      rfl
    · intro f' hf
      rw [heq] at hf
      injection hf with hv
      injection hv with hs
      subst hs
      rw [dget_dset_self]
    · intro k h1 h2
      rw [dget_dset_ne _ _ _ _ h2, dget_dset_ne _ _ _ _ h1]
  case h_3 val hne heq =>
    refine ⟨_, hmm.symm, by rw [dget_dset_self]; rfl, ?_, ?_⟩
    · intro f hf
      rw [heq] at hf
      injection hf with hv
      exact absurd hv (hne f)
    · intro k h1 h2
      rw [dget_dset_ne _ _ _ _ h1]

/-- C9 counterexample: on a manifest with a pre-existing `qasm_files` key,
`validate_manifest` does not leave every pre-existing key of the manifest
unchanged — the `qasm_files` value is overwritten in place. -/
theorem validate_manifest_mutation_counterexample :
    validate_manifest (.obj cexManifest) = .ok (.obj cexManifestAfter, true, []) ∧
    dget cexManifest "qasm_files" = some (.str "old") ∧
    dget cexManifestAfter "qasm_files" ≠ some (.str "old") :=
  ⟨rfl, rfl, by
    rw [show dget cexManifestAfter "qasm_files" =
      some (JValue.arr [JValue.str "bell.qasm"]) from rfl]
    simp⟩

/-! ### The error envelope (C7, C10) -/

theorem raiseDefault_detail (message : String) (code : Nat) :
    (raiseDefault message code).detail =
      .obj [("status_code", .num code), ("error", .str "bad_request"),
            ("message", .str message)] := by
  simp [raiseDefault, raise_http_exception, create_error_response, dget,
    JValue.isNull, List.filter]

theorem isErrorEnvelope_raiseDefault (message : String) (code : Nat) :
    isErrorEnvelope (raiseDefault message code).detail = true := by
  rw [raiseDefault_detail]
  simp [isErrorEnvelope, dget]

theorem errorWellFormed_404 (message : String) :
    errorWellFormed (raiseDefault message 404) :=
  ⟨Or.inr (Or.inr (Or.inr (Or.inl rfl))), isErrorEnvelope_raiseDefault message 404⟩

theorem errorWellFormed_500 (message : String) :
    errorWellFormed (raiseDefault message 500) :=
  ⟨Or.inr (Or.inr (Or.inr (Or.inr rfl))), isErrorEnvelope_raiseDefault message 500⟩

/-- C7 (amended): every error response raised by the body of a quantum app
service endpoint — all of them go through `raise_http_exception` — carries
one of the status codes 400/401/403/404/500 (in fact 404 or 500) and a
`detail` that is the JSON error envelope with at least `status_code`,
`error` and `message`.  Authentication failures from the
`get_current_user_id` dependency are not of this shape (see the
counterexample). -/
theorem quantum_app_endpoint_handler_errors :
    (∀ svc h, get_quantum_apps_endpoint_body svc = .error h → errorWellFormed h) ∧
    (∀ svc h, create_quantum_app_endpoint_body svc = .error h → errorWellFormed h) ∧
    (∀ svc h, get_quantum_app_endpoint_body svc = .error h → errorWellFormed h) ∧
    (∀ svc h, update_quantum_app_endpoint_body svc = .error h → errorWellFormed h) ∧
    (∀ svc h, delete_quantum_app_endpoint_body svc = .error h → errorWellFormed h) ∧
    (∀ svc h, get_app_versions_endpoint_body svc = .error h → errorWellFormed h) ∧
    (∀ svc h, get_app_version_endpoint_body svc = .error h → errorWellFormed h) ∧
    (∀ svc h, download_package_endpoint_body svc = .error h → errorWellFormed h) ∧
    (∀ svc h, upload_app_package_endpoint_body svc = .error h → errorWellFormed h) := by
  refine ⟨?_, ?_, ?_, ?_, ?_, ?_, ?_, ?_, ?_⟩
  · intro svc h he
    cases svc with
    | error e =>
      simp only [get_quantum_apps_endpoint_body] at he
      injection he with hh
      rw [← hh]
      exact errorWellFormed_500 _
    | ok v => simp [get_quantum_apps_endpoint_body] at he
  · intro svc h he
    cases svc with
    | error e =>
      simp only [create_quantum_app_endpoint_body] at he
      injection he with hh
      rw [← hh]
      exact errorWellFormed_500 _
    | ok v => simp [create_quantum_app_endpoint_body] at he
  · intro svc h he
    cases svc with
    | error e =>
      simp only [get_quantum_app_endpoint_body] at he
      injection he with hh
      rw [← hh]
      exact errorWellFormed_500 _
    | ok v =>
      cases v with
      | none =>
        simp only [get_quantum_app_endpoint_body] at he
        injection he with hh
        rw [← hh]
        exact errorWellFormed_404 _
      | some app => simp [get_quantum_app_endpoint_body] at he
  · intro svc h he
    cases svc with
    | error e =>
      simp only [update_quantum_app_endpoint_body] at he
      injection he with hh
      rw [← hh]
      exact errorWellFormed_500 _
    | ok v =>
      cases v with
      | none =>
        simp only [update_quantum_app_endpoint_body] at he
        injection he with hh
        rw [← hh]
        exact errorWellFormed_404 _
      | some app => simp [update_quantum_app_endpoint_body] at he
  · intro svc h he
    cases svc with
    | error e =>
      simp only [delete_quantum_app_endpoint_body] at he
      injection he with hh
      rw [← hh]
      exact errorWellFormed_500 _
    | ok v =>
      cases v with
      | false =>
        simp only [delete_quantum_app_endpoint_body] at he
        injection he with hh
        rw [← hh]
        exact errorWellFormed_404 _
      | true => simp [delete_quantum_app_endpoint_body] at he
  · intro svc h he
    cases svc with
    | error e =>
      simp only [get_app_versions_endpoint_body] at he
      injection he with hh
      rw [← hh]
      exact errorWellFormed_500 _
    | ok v =>
      cases v with
      | none =>
        simp only [get_app_versions_endpoint_body] at he
        injection he with hh
        rw [← hh]
        exact errorWellFormed_404 _
      | some versions => simp [get_app_versions_endpoint_body] at he
  · intro svc h he
    cases svc with
    | error e =>
      simp only [get_app_version_endpoint_body] at he
      injection he with hh
      rw [← hh]
      exact errorWellFormed_500 _
    | ok v =>
      cases v with
      | noApp =>
        simp only [get_app_version_endpoint_body] at he
        injection he with hh
        rw [← hh]
        exact errorWellFormed_404 _
      | noSecond =>
        simp only [get_app_version_endpoint_body] at he
        injection he with hh
        rw [← hh]
        exact errorWellFormed_404 _
      | found v => simp [get_app_version_endpoint_body] at he
  · intro svc h he
    cases svc with
    | error e =>
      simp only [download_package_endpoint_body] at he
      injection he with hh
      rw [← hh]
      exact errorWellFormed_500 _
    | ok v =>
      cases v with
      | noApp =>
        simp only [download_package_endpoint_body] at he
        injection he with hh
        rw [← hh]
        exact errorWellFormed_404 _
      | noSecond =>
        simp only [download_package_endpoint_body] at he
        injection he with hh
        rw [← hh]
        exact errorWellFormed_404 _
      | found v => simp [download_package_endpoint_body] at he
  · intro svc h he
    cases svc with
    | error e =>
      simp only [upload_app_package_endpoint_body] at he
      injection he with hh
      rw [← hh]
      exact errorWellFormed_500 _
    | ok v =>
      cases v with
      | none =>
        simp only [upload_app_package_endpoint_body] at he
        injection he with hh
        rw [← hh]
        exact errorWellFormed_500 _
      | some app => simp [upload_app_package_endpoint_body] at he

/-- C7 counterexample: a request to the delete endpoint with a token that
fails to decode is answered by the quantum app service with a 401 whose
body `detail` is a plain string, not the JSON error envelope with
`status_code`, `error` and `message`. -/
theorem quantum_app_endpoint_error_envelope_counterexample :
    runEndpoint (.error "Signature has expired")
        (fun _ => delete_quantum_app_endpoint_body (.ok true)) =
      .error { status_code := 401,
               detail := .str "Could not validate credentials: Signature has expired" } ∧
    isErrorEnvelope
      (.str "Could not validate credentials: Signature has expired") = false :=
  ⟨rfl, rfl⟩

/-- C10: `create_response` omits every key whose value is `None`: the
`data`, `message` and `meta` keys are present exactly when their arguments
are not `None`, the `errors` key is never present, and the all-`None`
success call yields the one-key envelope. -/
theorem create_response_omits_none :
    (∀ data message meta success,
      (dget (create_response data message meta success) "data" =
        if data.isNull then none else some data) ∧
      (dget (create_response data message meta success) "message" =
        if message.isNull then none else some message) ∧
      (dget (create_response data message meta success) "meta" =
        if meta.isNull then none else some meta) ∧
      dget (create_response data message meta success) "errors" = none ∧
      dget (create_response data message meta success) "success" =
        some (JValue.bool success)) ∧
    create_response .null .null .null true = [("success", JValue.bool true)] := by
  constructor
  · intro data message meta success
    cases data <;> cases message <;> cases meta <;>
      simp [create_response, dget, JValue.isNull, List.filter]
  · rfl

/-- C9 witness: a manifest holding only `application_source_file`. -/
theorem validate_manifest_mutation_witness :
    ∃ mo : Dict,
      (JValue.obj [("application_source_file", JValue.str "w.qasm"),
        ("_normalized", JValue.obj []),
        ("qasm_files", JValue.arr [JValue.str "w.qasm"])]) = .obj mo ∧
      (dget mo "_normalized").isSome = true ∧
      (∀ f, dget [("application_source_file", JValue.str "w.qasm")]
          "application_source_file" = some (.str f) →
        dget mo "qasm_files" = some (.arr [.str f])) ∧
      (∀ k, k ≠ "_normalized" → k ≠ "qasm_files" →
        dget mo k = dget [("application_source_file", JValue.str "w.qasm")] k) :=
  validate_manifest_mutation [("application_source_file", JValue.str "w.qasm")] _ false
    ["Missing required field: app_name", "Missing required field: application_type",
     "Missing required field: version", "Missing required field: quantum_cli_sdk_version"]
    rfl


/-! ### Lemmas about `validate_package` -/

theorem zipRead_mem {entries : List (String × FileData)} {n : String} {fd : FileData}
    (h : zipRead entries n = some fd) : (n, fd) ∈ entries := by
  unfold zipRead at h
  cases hf : entries.reverse.find? (fun p => p.1 = n) with
  | none => rw [hf] at h; simp at h
  | some p =>
    rw [hf] at h
    simp only [Option.map_some'] at h
    have hp : p ∈ entries := List.mem_reverse.mp (List.mem_of_find?_eq_some hf)
    have hn : p.1 = n := by
      have := List.find?_some hf
      simpa using this
    have : p = (n, fd) := by
      cases p
      simp only at hn h
      injection h with h2
      rw [hn, h2]
    rw [← this]
    exact hp

theorem zipRead_isSome_iff (entries : List (String × FileData)) (n : String) :
    (zipRead entries n).isSome ↔ ∃ p ∈ entries, p.1 = n := by
  unfold zipRead
  rw [Option.isSome_map']
  rw [List.find?_isSome]
  constructor
  · rintro ⟨p, hp, hpn⟩
    exact ⟨p, List.mem_reverse.mp hp, by simpa using hpn⟩
  · rintro ⟨p, hp, hpn⟩
    exact ⟨p, List.mem_reverse.mpr hp, by simpa using hpn⟩

theorem extractQasmLoop_ok (entries : List (String × FileData))
    (hdec : ∀ p ∈ entries, p.1.endsWith ".qasm" = true → p.2.text ≠ none) :
    ∀ (rest : List (String × FileData)) (acc : AList String),
      (∀ p ∈ rest, p ∈ entries) →
      ∃ qfs, extractQasmLoop entries rest acc = .ok qfs ∧
        ∀ n, (dget qfs n).isSome ↔
          ((dget acc n).isSome ∨ (n.endsWith ".qasm" = true ∧ ∃ p ∈ rest, p.1 = n)) := by
  intro rest
  induction rest with
  | nil =>
    intro acc hsub
    exact ⟨acc, rfl, by simp [extractQasmLoop]⟩
  | cons p rest ih =>
    intro acc hsub
    by_cases hq : p.1.endsWith ".qasm" = true
    · have hpe : p ∈ entries := hsub p (List.mem_cons_self p rest)
      have hzr : (zipRead entries p.1).isSome := by
        rw [zipRead_isSome_iff]
        exact ⟨p, hpe, rfl⟩
      cases hfd : zipRead entries p.1 with
      | none => rw [hfd] at hzr; simp at hzr
      | some fd =>
        have hmem := zipRead_mem hfd
        have htext : fd.text ≠ none := hdec (p.1, fd) hmem hq
        cases htc : fd.text with
        | none => exact absurd htc htext
        | some content =>
          obtain ⟨qfs, hrun, hchar⟩ := ih (dset acc p.1 content)
            (fun q hqr => hsub q (List.mem_cons_of_mem p hqr))
          refine ⟨qfs, ?_, ?_⟩
          · rw [show extractQasmLoop entries (p :: rest) acc =
              extractQasmLoop entries rest (dset acc p.1 content) by
                simp [extractQasmLoop, hq, hfd, htc]]
            exact hrun
          · intro n
            rw [hchar n]
            by_cases hn : n = p.1
            · subst hn
              simp only [dget_dset_self, Option.isSome_some, true_or, true_iff]
              exact Or.inr ⟨hq, p, List.mem_cons_self p rest, rfl⟩
            · rw [dget_dset_ne _ _ _ _ hn]
              constructor
              · rintro (ha | ⟨he, q, hqmem, hqn⟩)
                · exact Or.inl ha
                · exact Or.inr ⟨he, q, List.mem_cons_of_mem p hqmem, hqn⟩
              · rintro (ha | ⟨he, q, hqmem, hqn⟩)
                · exact Or.inl ha
                · rcases List.mem_cons.mp hqmem with hqp | hqr
                  · subst hqp; exact absurd hqn.symm hn
                  · exact Or.inr ⟨he, q, hqr, hqn⟩
    · obtain ⟨qfs, hrun, hchar⟩ := ih acc (fun q hqr => hsub q (List.mem_cons_of_mem p hqr))
      refine ⟨qfs, ?_, ?_⟩
      · rw [show extractQasmLoop entries (p :: rest) acc =
          extractQasmLoop entries rest acc by simp [extractQasmLoop, hq]]
        exact hrun
      · intro n
        rw [hchar n]
        constructor
        · rintro (ha | ⟨he, q, hqmem, hqn⟩)
          · exact Or.inl ha
          · exact Or.inr ⟨he, q, List.mem_cons_of_mem p hqmem, hqn⟩
        · rintro (ha | ⟨he, q, hqmem, hqn⟩)
          · exact Or.inl ha
          · rcases List.mem_cons.mp hqmem with hqp | hqr
            · subst hqp
              exact absurd he (by rw [hqn] at hq; exact hq)
            · exact Or.inr ⟨he, q, hqr, hqn⟩

theorem extract_qasm_files_ok (entries : List (String × FileData))
    (hdec : ∀ p ∈ entries, p.1.endsWith ".qasm" = true → p.2.text ≠ none) :
    ∃ qfs, extract_qasm_files (.zip entries) = .ok qfs ∧
      ∀ n, (dget qfs n).isSome ↔
        (n.endsWith ".qasm" = true ∧ ∃ p ∈ entries, p.1 = n) := by
  obtain ⟨qfs, hrun, hchar⟩ := extractQasmLoop_ok entries hdec entries [] (fun _ h => h)
  refine ⟨qfs, hrun, fun n => ?_⟩
  rw [hchar n]
  simp [dget]



theorem qasmRefErrors_str (qfs : AList String) (f : String) :
    qasmRefErrors qfs [.str f] =
      .ok (if (dget qfs f).isSome then []
           else ["Specified QASM file not found in package: " ++ f]) := by
  simp [qasmRefErrors]

/-- Structure of a successful `validate_manifest` run on a dict: the result
is a dict whose `qasm_files` entry is the singleton source-file list when
`application_source_file` is a string, and the original entry otherwise. -/
theorem validate_manifest_obj (m : Dict) :
    ∃ mo ok errs, validate_manifest (.obj m) = .ok (.obj mo, ok, errs) ∧
      dget mo "qasm_files" =
        (match dget m "application_source_file" with
         | some (.str f) => some (.arr [.str f])
         | _ => dget m "qasm_files") := by
  cases hv : validate_manifest (.obj m) with
  | error e =>
    simp only [validate_manifest] at hv
    split at hv <;> simp at hv
  | ok r =>
    obtain ⟨mm, ok, errs⟩ := r
    have hv0 := hv
    simp only [validate_manifest] at hv
    split at hv <;>
      (simp only [Except.ok.injEq, Prod.mk.injEq] at hv
       obtain ⟨hmm, hok, herrs⟩ := hv)
    case ok.mk.mk.h_1.intro.intro heq =>
      refine ⟨dset m "_normalized" (JValue.obj (normalizeManifest m)), ok, errs, ?_, ?_⟩
      · rw [← hmm]
      · rw [dget_dset_ne _ _ _ _ (by decide), heq]
    case ok.mk.mk.h_2.intro.intro f heq =>
      refine ⟨dset (dset m "_normalized" (JValue.obj (normalizeManifest m))) "qasm_files"
        (JValue.arr [JValue.str f]), ok, errs, ?_, ?_⟩
      · rw [← hmm]
      · rw [dget_dset_self, heq]
    case ok.mk.mk.h_3.intro.intro val hne heq =>
      refine ⟨dset m "_normalized" (JValue.obj (normalizeManifest m)), ok, errs, ?_, ?_⟩
      · rw [← hmm]
      · rw [dget_dset_ne _ _ _ _ (by decide), heq]
        cases val with
        | str f => exact absurd rfl (hne f)
        | null => rfl
        | bool b => rfl
        | num n => rfl
        | arr xs => rfl
        | obj kvs => rfl



theorem extractQasmLoop_shape (entries : List (String × FileData)) :
    ∀ (rest : List (String × FileData)) (acc : AList String),
      (∃ q, extractQasmLoop entries rest acc = .ok q) ∨
      extractQasmLoop entries rest acc =
        .error (.valueError "Unable to decode .qasm file as UTF-8") := by
  intro rest
  induction rest with
  | nil => exact fun acc => Or.inl ⟨acc, rfl⟩
  | cons p rest ih =>
    intro acc
    by_cases hq : p.1.endsWith ".qasm" = true
    · cases hfd : (zipRead entries p.1).bind (·.text) with
      | none =>
        right
        simp [extractQasmLoop, hq, hfd]
      | some content =>
        rcases ih (dset acc p.1 content) with ⟨q, hq2⟩ | hq2
        · exact Or.inl ⟨q, by simp [extractQasmLoop, hq, hfd, hq2]⟩
        · exact Or.inr (by simp [extractQasmLoop, hq, hfd, hq2])
    · rcases ih acc with ⟨q, hq2⟩ | hq2
      · exact Or.inl ⟨q, by simp [extractQasmLoop, hq, hq2]⟩
      · exact Or.inr (by simp [extractQasmLoop, hq, hq2])

theorem qasmRefErrors_hashable (qfs : AList String) :
    ∀ items : List JValue, (∀ x ∈ items, x.isHashable = true) →
      ∃ res, qasmRefErrors qfs items = .ok res := by
  intro items
  induction items with
  | nil => exact fun _ => ⟨[], rfl⟩
  | cons x rest ih =>
    intro hx
    obtain ⟨res, hres⟩ := ih (fun y hy => hx y (List.mem_cons_of_mem x hy))
    have hxh := hx x (List.mem_cons_self x rest)
    cases x with
    | arr xs => simp [JValue.isHashable] at hxh
    | obj kvs => simp [JValue.isHashable] at hxh
    | str s =>
      refine ⟨(if (dget qfs s).isSome then []
        else ["Specified QASM file not found in package: " ++ s]) ++ res, ?_⟩
      simp [qasmRefErrors, hres]
    | null =>
      refine ⟨("Specified QASM file not found in package: " ++ pyStrOf .null) :: res, ?_⟩
      simp [qasmRefErrors, hres]
    | bool b =>
      refine ⟨("Specified QASM file not found in package: " ++ pyStrOf (.bool b)) :: res, ?_⟩
      simp [qasmRefErrors, hres]
    | num n =>
      refine ⟨("Specified QASM file not found in package: " ++ pyStrOf (.num n)) :: res, ?_⟩
      simp [qasmRefErrors, hres]

theorem pyIter_hashable (qv : JValue) (hsafe : qasmRefSafe qv = true) :
    ∃ items, pyIter qv = .ok items ∧ ∀ x ∈ items, x.isHashable = true := by
  cases qv with
  | arr xs =>
    refine ⟨xs, rfl, ?_⟩
    have hall : ∀ x ∈ xs, JValue.isHashable x = true := by
      simpa [qasmRefSafe, List.all_eq_true] using hsafe
    exact hall
  | str s =>
    refine ⟨_, rfl, ?_⟩
    intro x hx
    simp only [List.mem_map] at hx
    obtain ⟨c, -, hc⟩ := hx
    rw [← hc]
    rfl
  | obj kvs =>
    refine ⟨_, rfl, ?_⟩
    intro x hx
    simp only [List.mem_map] at hx
    obtain ⟨p, -, hp⟩ := hx
    rw [← hp]
    rfl
  | null => simp [qasmRefSafe] at hsafe
  | bool b => simp [qasmRefSafe] at hsafe
  | num n => simp [qasmRefSafe] at hsafe

theorem validate_package_no_raise (pkg : PackageData) (hsafe : manifestSafe pkg) :
    ∃ r, validate_package pkg = .ok r := by
  cases pkg with
  | badZip => exact ⟨_, rfl⟩
  | zip entries =>
    cases hman : zipRead entries "quantum_manifest.json" with
    | none =>
      simp only [validate_package, extract_manifest_from_zip, hman]
      exact ⟨_, rfl⟩
    | some fd =>
      cases hjson : fd.json with
      | none =>
        simp only [validate_package, extract_manifest_from_zip, hman, hjson]
        exact ⟨_, rfl⟩
      | some v =>
        have hext : extract_manifest_from_zip (.zip entries) = .ok (some v) := by
          simp [extract_manifest_from_zip, hman, hjson]
        have hsafe2 : manifestValueSafe v := by
          simp only [manifestSafe, hman, hjson] at hsafe
          exact hsafe
        by_cases htr : pyTruthy v = false
        · simp only [validate_package, hext, htr, if_true]
          exact ⟨_, rfl⟩
        · rcases hsafe2 with htr2 | ⟨mm, hv, hC⟩
          · exact absurd htr2 htr
          · subst hv
            have htr3 : pyTruthy (JValue.obj mm) = true := by
              cases hh : pyTruthy (JValue.obj mm)
              · exact absurd hh htr
              · rfl
            obtain ⟨mo, ok1, errs1, hvm, hqf⟩ := validate_manifest_obj mm
            rcases extractQasmLoop_shape entries entries [] with ⟨qfs, hqfs⟩ | hbad
            · -- qasm extraction succeeds; analyse the reference check
              by_cases hmo : pyTruthy (JValue.obj mo) = false
              · simp only [validate_package, hext, htr3, hvm, extract_qasm_files, hqfs, hmo,
                  if_true, Bool.true_eq_false, if_false]
                exact ⟨_, rfl⟩
              · have hmo3 : pyTruthy (JValue.obj mo) = true := by
                  cases hh : pyTruthy (JValue.obj mo)
                  · exact absurd hh hmo
                  · rfl
                have hcase : (∃ f, dget mo "qasm_files" = some (.arr [.str f])) ∨
                    dget mo "qasm_files" = dget mm "qasm_files" := by
                  rw [hqf]
                  cases hsrc : dget mm "application_source_file" with
                  | none => exact Or.inr rfl
                  | some sv =>
                    cases sv with
                    | str f => exact Or.inl ⟨f, rfl⟩
                    | null => exact Or.inr rfl
                    | bool b => exact Or.inr rfl
                    | num n => exact Or.inr rfl
                    | arr xs => exact Or.inr rfl
                    | obj kvs => exact Or.inr rfl
                rcases hcase with ⟨f, hqf2⟩ | hqf2
                · simp only [validate_package, hext, htr3, hvm, extract_qasm_files, hqfs,
                    hmo3, hqf2, pyIter, qasmRefErrors_str, Bool.true_eq_false, if_false]
                  exact ⟨_, rfl⟩
                · cases hq0 : dget mm "qasm_files" with
                  | none =>
                    rw [hq0] at hqf2
                    simp only [validate_package, hext, htr3, hvm, extract_qasm_files, hqfs,
                      hmo3, hqf2, Bool.true_eq_false, if_false]
                    exact ⟨_, rfl⟩
                  | some qv =>
                    rw [hq0] at hqf2
                    have hsafeqv : qasmRefSafe qv = true := by
                      rcases hC with ⟨f, hf⟩ | hB
                      · have : dget mo "qasm_files" = some (JValue.arr [JValue.str f]) := by
                          rw [hqf, hf]
                        rw [hqf2] at this
                        injection this with hqv
                        rw [hqv]
                        rfl
                      · rw [hq0] at hB
                        exact hB
                    obtain ⟨items, hit, hhash⟩ := pyIter_hashable qv hsafeqv
                    obtain ⟨res, hres⟩ := qasmRefErrors_hashable qfs items hhash
                    simp only [validate_package, hext, htr3, hvm, extract_qasm_files, hqfs,
                      hmo3, hqf2, hq0, hit, hres, Bool.true_eq_false, if_false]
                    exact ⟨_, rfl⟩
            · simp only [validate_package, hext, htr3, hvm, extract_qasm_files, hbad,
                Bool.true_eq_false, if_false]
              exact ⟨_, rfl⟩


/-- C4 (amended): `validate_package` returns the claimed error triples on a
bad zip, a missing manifest entry, and an unparseable manifest, and it
returns a triple (raises no exception) on every input whose manifest entry,
when present and parseable, is falsy or a JSON object whose effective
`qasm_files` value is iterable with hashable elements.  Outside that
condition it can raise `TypeError` (see the counterexample). -/
theorem validate_package_returns_triple :
    validate_package .badZip = .ok (false, ["Invalid zip file"], none) ∧
    (∀ entries, zipRead entries "quantum_manifest.json" = none →
      validate_package (.zip entries) =
        .ok (false, ["Missing quantum_manifest.json in package"], none)) ∧
    (∀ entries fd, zipRead entries "quantum_manifest.json" = some fd → fd.json = none →
      validate_package (.zip entries) =
        .ok (false, ["Invalid JSON in quantum_manifest.json"], none)) ∧
    (∀ pkg, manifestSafe pkg → ∃ r, validate_package pkg = .ok r) := by
  refine ⟨rfl, ?_, ?_, validate_package_no_raise⟩
  · intro entries hman
    simp [validate_package, extract_manifest_from_zip, hman]
  · intro entries fd hman hjson
    simp [validate_package, extract_manifest_from_zip, hman, hjson]

/-- C4 counterexample: a zip whose `quantum_manifest.json` parses to the
truthy non-dict JSON value `1` makes `validate_package` raise `TypeError`
(at `'app_name' in manifest`) instead of returning a triple. -/
theorem validate_package_raises_counterexample :
    validate_package (.zip [("quantum_manifest.json",
      { json := some (.num 1), text := none })]) = .error .typeError := rfl


/-! ### First-character lemmas for the error messages -/

theorem ne_of_head {s t : String} {c d : Char} (hs : s.data.head? = some c)
    (ht : t.data.head? = some d) (hcd : c ≠ d) : s ≠ t := by
  intro h
  subst h
  rw [hs] at ht
  injection ht with h2
  exact hcd h2

theorem fieldErr_mem_head (m : Dict) (orig : String) (x : String)
    (hx : x ∈ fieldErr m orig) :
    x.data.head? = some 'M' ∨ x.data.head? = some 'F' := by
  unfold fieldErr at hx
  cases hdg : dget m orig with
  | none =>
    rw [hdg] at hx
    simp only [List.mem_singleton] at hx
    subst hx
    left
    rw [String.data_append]
    rfl
  | some v =>
    rw [hdg] at hx
    by_cases hv : v.isStr = true
    · simp [hv] at hx
    · simp only [hv, Bool.false_eq_true, if_false, List.mem_singleton] at hx
      subst hx
      right
      rw [String.data_append, String.data_append]
      rfl

theorem specified_head (f : String) :
    ("Specified QASM file not found in package: " ++ f).data.head? = some 'S' := by
  rw [String.data_append]
  rfl

theorem dget_some_ne_nil {α : Type} {m : AList α} {k : String} {v : α}
    (h : dget m k = some v) : m ≠ [] := by
  intro hm
  subst hm
  simp [dget] at h

theorem validate_manifest_nonobj (v : JValue) (hv : ∀ mm : Dict, v ≠ .obj mm) :
    validate_manifest v = .error .typeError := by
  cases v with
  | obj kvs => exact absurd rfl (hv kvs)
  | null => rfl
  | bool b => rfl
  | num n => rfl
  | str s => rfl
  | arr xs => rfl

/-- C2 (amended): for a package whose parseable manifest names the source
file `f` (and whose `.qasm` entries all decode as UTF-8), `validate_package`
emits `Specified QASM file not found in package: f` exactly when no archive
entry is named `f` **and ends in `.qasm`** — mere presence of `f` in the
archive is not enough, because `extract_qasm_files` only collects `.qasm`
filenames (see the counterexample); when the reference is missing the
result flag is `False`. -/
theorem validate_package_qasm_reference (entries : List (String × FileData))
    (fd : FileData) (m : Dict) (f : String)
    (hman : zipRead entries "quantum_manifest.json" = some fd)
    (hjson : fd.json = some (.obj m))
    (hsrc : dget m "application_source_file" = some (.str f))
    (hdec : ∀ p ∈ entries, p.1.endsWith ".qasm" = true → p.2.text ≠ none) :
    ∃ ok errs mres, validate_package (.zip entries) = .ok (ok, errs, mres) ∧
      (("Specified QASM file not found in package: " ++ f) ∈ errs ↔
        ¬ (f.endsWith ".qasm" = true ∧ ∃ p ∈ entries, p.1 = f)) ∧
      (¬ (f.endsWith ".qasm" = true ∧ ∃ p ∈ entries, p.1 = f) → ok = false) := by
  have hext : extract_manifest_from_zip (.zip entries) = .ok (some (.obj m)) := by
    simp [extract_manifest_from_zip, hman, hjson]
  have htr : pyTruthy (.obj m) = true := by
    have hne := dget_some_ne_nil hsrc
    cases m with
    | nil => exact absurd rfl hne
    | cons a l => rfl
  obtain ⟨mo, ok1, errs1, hvm, hqf⟩ := validate_manifest_obj m
  have hperm := validate_manifest_errors_perm m (.obj mo) ok1 errs1 hvm
  have hqf2 : dget mo "qasm_files" = some (.arr [.str f]) := by rw [hqf, hsrc]
  have hmoT : pyTruthy (.obj mo) = true := by
    have hne := dget_some_ne_nil hqf2
    cases mo with
    | nil => exact absurd rfl hne
    | cons a l => rfl
  obtain ⟨qfs, hqfs, hchar⟩ := extract_qasm_files_ok entries hdec
  have herrs2 : (if ok1 = true then [] else errs1) = errs1 := by
    rw [hperm.2]
    by_cases hE : errs1.isEmpty = true
    · rw [if_pos hE, List.isEmpty_iff.mp hE]
    · rw [if_neg hE]
  refine ⟨((errs1 ++ (if qfs.isEmpty then ["No .qasm files found in package"] else [])) ++
      (if (dget qfs f).isSome then []
       else ["Specified QASM file not found in package: " ++ f])).isEmpty,
    (errs1 ++ (if qfs.isEmpty then ["No .qasm files found in package"] else [])) ++
      (if (dget qfs f).isSome then []
       else ["Specified QASM file not found in package: " ++ f]),
    some (.obj mo), ?_, ?_, ?_⟩
  · simp only [validate_package, hext, htr, hvm, hqfs, hmoT, hqf2, pyIter,
      qasmRefErrors_str, herrs2, Bool.true_eq_false, if_false]
  · have h1 : ("Specified QASM file not found in package: " ++ f) ∉ errs1 := by
      intro hmem
      have hmem2 := (hperm.1).mem_iff.mp hmem
      simp only [List.mem_append] at hmem2
      rcases hmem2 with ((((h | h) | h) | h) | h) <;>
        · rcases fieldErr_mem_head _ _ _ h with hh | hh <;>
            (rw [specified_head f] at hh; exact absurd hh (by decide))
    have h2 : ("Specified QASM file not found in package: " ++ f) ∉
        (if qfs.isEmpty then ["No .qasm files found in package"] else []) := by
      by_cases hqe : qfs.isEmpty = true <;> simp only [hqe, if_pos, if_neg, if_true, if_false]
      · intro hmem
        simp only [List.mem_singleton] at hmem
        have hS := specified_head f
        rw [hmem] at hS
        exact absurd hS (by decide)
      · simp
    rw [List.mem_append, List.mem_append]
    constructor
    · rintro ((hmem | hmem) | hmem)
      · exact absurd hmem h1
      · exact absurd hmem h2
      · by_cases hfound : (dget qfs f).isSome = true
        · rw [if_pos hfound] at hmem
          simp at hmem
        · intro hgood
          exact hfound ((hchar f).mpr hgood)
    · intro hgood
      have hfound : (dget qfs f).isSome = false := by
        cases hf2 : (dget qfs f).isSome
        · rfl
        · exact absurd ((hchar f).mp hf2) hgood
      rw [hfound]
      right
      simp
  · intro hgood
    have hfound : (dget qfs f).isSome = false := by
      cases hf2 : (dget qfs f).isSome
      · rfl
      · exact absurd ((hchar f).mp hf2) hgood
    rw [hfound]
    simp

/-- C2 counterexample: the archive contains the referenced file `prog.txt`,
yet `validate_package` reports `Specified QASM file not found in package:
prog.txt`, because the file does not end in `.qasm`. -/
theorem validate_package_qasm_reference_counterexample :
    ("prog.txt", ({ json := none, text := some "OPENQASM 2.0;" } : FileData)) ∈ cexQasmEntries ∧
    validate_package (.zip cexQasmEntries) =
      .ok (false, ["No .qasm files found in package",
        "Specified QASM file not found in package: prog.txt"],
        some (.obj cexQasmManifestAfter)) :=
  ⟨List.mem_cons_of_mem _ (List.mem_singleton.mpr rfl), by with_unfolding_all rfl⟩

/-- C2 witness: a well-formed package whose `bell.qasm` reference is
present. -/
theorem validate_package_qasm_reference_witness :
    ∃ ok errs mres, validate_package (.zip wQasmEntries) = .ok (ok, errs, mres) ∧
      (("Specified QASM file not found in package: " ++ "bell.qasm") ∈ errs ↔
        ¬ ("bell.qasm".endsWith ".qasm" = true ∧ ∃ p ∈ wQasmEntries, p.1 = "bell.qasm")) ∧
      (¬ ("bell.qasm".endsWith ".qasm" = true ∧ ∃ p ∈ wQasmEntries, p.1 = "bell.qasm") →
        ok = false) :=
  validate_package_qasm_reference wQasmEntries wQasmFD wQasmManifest "bell.qasm"
    rfl rfl rfl (by
      intro p hp hq
      rcases List.mem_cons.mp hp with h | h
      · subst h; simp [wQasmFD]
      · rw [List.mem_singleton.mp h]; simp)

/-- C8 (amended): when the manifest entry parses to a non-empty JSON object
and every `.qasm` entry decodes, a returned triple carries the (mutated)
manifest as its third component even when validation fails; and whenever the
third component is `None`, either the zip was invalid, the manifest entry
was absent or unparseable, the parsed manifest was falsy (such as the empty
object), or a `.qasm` entry failed to decode. -/
theorem validate_package_manifest_passthrough :
    (∀ entries fd mm ok errs mres,
      zipRead entries "quantum_manifest.json" = some fd →
      fd.json = some (.obj mm) → mm ≠ [] →
      (∀ p ∈ entries, p.1.endsWith ".qasm" = true → p.2.text ≠ none) →
      validate_package (.zip entries) = .ok (ok, errs, mres) →
      ∃ mo : Dict, mres = some (.obj mo)) ∧
    (∀ pkg ok errs, validate_package pkg = .ok (ok, errs, none) →
      pkg = .badZip ∨
      ∃ entries, pkg = .zip entries ∧
        (zipRead entries "quantum_manifest.json" = none ∨
         ∃ fd, zipRead entries "quantum_manifest.json" = some fd ∧
           (fd.json = none ∨
            (∃ v, fd.json = some v ∧ pyTruthy v = false) ∨
            "Unable to decode .qasm file as UTF-8" ∈ errs))) := by
  constructor
  · intro entries fd mm ok errs mres hman hjson hne hdec h
    have hext : extract_manifest_from_zip (.zip entries) = .ok (some (.obj mm)) := by
      simp [extract_manifest_from_zip, hman, hjson]
    have htr : pyTruthy (.obj mm) = true := by
      cases mm with
      | nil => exact absurd rfl hne
      | cons a l => rfl
    obtain ⟨mo, ok1, errs1, hvm, hqf⟩ := validate_manifest_obj mm
    obtain ⟨qfs, hqfs, hchar⟩ := extract_qasm_files_ok entries hdec
    simp only [validate_package, hext, htr, hvm, hqfs, Bool.true_eq_false, if_false] at h
    by_cases hmoT : pyTruthy (.obj mo) = false
    · rw [if_pos hmoT] at h
      simp only [Except.ok.injEq, Prod.mk.injEq] at h
      exact ⟨mo, h.2.2.symm⟩
    · rw [if_neg hmoT] at h
      cases hdq : dget mo "qasm_files" with
      | none =>
        rw [hdq] at h
        simp only [Except.ok.injEq, Prod.mk.injEq] at h
        exact ⟨mo, h.2.2.symm⟩
      | some qv =>
        rw [hdq] at h
        simp only [] at h
        cases hpi : pyIter qv with
        | error e =>
          rw [hpi] at h
          simp only [] at h
          cases h
        | ok items =>
          rw [hpi] at h
          simp only [] at h
          cases hqr : qasmRefErrors qfs items with
          | error e =>
            rw [hqr] at h
            simp only [] at h
            cases h
          | ok res =>
            rw [hqr] at h
            simp only [] at h
            simp only [Except.ok.injEq, Prod.mk.injEq] at h
            exact ⟨mo, h.2.2.symm⟩
  · intro pkg ok errs h
    cases pkg with
    | badZip => exact Or.inl rfl
    | zip entries =>
      right
      refine ⟨entries, rfl, ?_⟩
      cases hman : zipRead entries "quantum_manifest.json" with
      | none => exact Or.inl rfl
      | some fd =>
        right
        refine ⟨fd, rfl, ?_⟩
        cases hjson : fd.json with
        | none => exact Or.inl rfl
        | some v =>
          right
          have hext : extract_manifest_from_zip (.zip entries) = .ok (some v) := by
            simp [extract_manifest_from_zip, hman, hjson]
          by_cases htr : pyTruthy v = false
          · exact Or.inl ⟨v, rfl, htr⟩
          · right
            have htr2 : pyTruthy v = true := by
              cases hh : pyTruthy v
              · exact absurd hh htr
              · rfl
            cases v with
            | obj mm =>
              obtain ⟨mo, ok1, errs1, hvm, hqf⟩ := validate_manifest_obj mm
              rcases extractQasmLoop_shape entries entries [] with ⟨qfs, hqfs⟩ | hbad
              · -- extraction succeeded: the third component cannot be none
                simp only [validate_package, hext, htr2, hvm, extract_qasm_files, hqfs,
                  Bool.true_eq_false, if_false] at h
                by_cases hmoT : pyTruthy (.obj mo) = false
                · rw [if_pos hmoT] at h
                  simp only [Except.ok.injEq, Prod.mk.injEq] at h
                  exact absurd h.2.2.symm (by simp)
                · rw [if_neg hmoT] at h
                  cases hdq : dget mo "qasm_files" with
                  | none =>
                    rw [hdq] at h
                    simp only [Except.ok.injEq, Prod.mk.injEq] at h
                    exact absurd h.2.2.symm (by simp)
                  | some qv =>
                    rw [hdq] at h
                    simp only [] at h
                    cases hpi : pyIter qv with
                    | error e =>
                      rw [hpi] at h
                      simp only [] at h
                      cases h
                    | ok items =>
                      rw [hpi] at h
                      simp only [] at h
                      cases hqr : qasmRefErrors qfs items with
                      | error e =>
                        rw [hqr] at h
                        simp only [] at h
                        cases h
                      | ok res =>
                        rw [hqr] at h
                        simp only [] at h
                        simp only [Except.ok.injEq, Prod.mk.injEq] at h
                        exact absurd h.2.2.symm (by simp)
              · simp only [validate_package, hext, htr2, hvm, extract_qasm_files, hbad,
                  Bool.true_eq_false, if_false, Except.ok.injEq, Prod.mk.injEq] at h
                rw [← h.2.1]
                exact List.mem_append_right _ (List.mem_singleton.mpr rfl)
            | null => simp [pyTruthy] at htr2
            | bool b =>
              have hvm : validate_manifest (.bool b) = .error .typeError := rfl
              simp only [validate_package, hext, htr2, hvm, Bool.true_eq_false, if_false] at h
              cases h
            | num n =>
              have hvm : validate_manifest (.num n) = .error .typeError := rfl
              simp only [validate_package, hext, htr2, hvm, Bool.true_eq_false, if_false] at h
              cases h
            | str s =>
              have hvm : validate_manifest (.str s) = .error .typeError := rfl
              simp only [validate_package, hext, htr2, hvm, Bool.true_eq_false, if_false] at h
              cases h
            | arr xs =>
              have hvm : validate_manifest (.arr xs) = .error .typeError := rfl
              simp only [validate_package, hext, htr2, hvm, Bool.true_eq_false, if_false] at h
              cases h

/-- C8 counterexample: an archive whose `quantum_manifest.json` parses
(to the empty object) still gets `None` as the third component, with the
misleading missing-manifest message. -/
theorem validate_package_manifest_passthrough_counterexample :
    validate_package (.zip [("quantum_manifest.json",
        { json := some (.obj []), text := none })]) =
      .ok (false, ["Missing quantum_manifest.json in package"], none) ∧
    ({ json := some (.obj []), text := none } : FileData).json = some (.obj []) :=
  ⟨rfl, rfl⟩

end QHub

namespace QHub

/-- A successful `findApp` lookup returns a member row with the looked-up id. -/
theorem findApp_eq {db : DB} {app_id : Nat} {app : AppRow}
    (h : findApp db app_id = some app) : app ∈ db.apps ∧ app.id = app_id := by
  unfold findApp at h
  refine ⟨List.mem_of_find?_eq_some h, ?_⟩
  have := List.find?_some h
  simpa using this

/-- User registration and project CRUD never touch the app or version
tables, so they preserve the invariant. -/
theorem dbInv_sideTables (db : DB) (users : List Nat) (projects : List ProjectRow)
    (h : dbInv db) : dbInv { db with users := users, projects := projects } :=
  h

/-- `create_quantum_app` preserves the invariant: the fresh app has no
versions and no `latest_version_id`. -/
theorem dbInv_create_quantum_app (db : DB) (user_id : Nat) (app_data : Dict)
    (h : dbInv db) : dbInv (create_quantum_app db user_id app_data).2 := by
  obtain ⟨hA, hB, hC, hD⟩ := h
  refine ⟨?_, ?_, hC, ?_⟩
  · intro a ha
    simp only [create_quantum_app, List.mem_append, List.mem_singleton] at ha
    rcases ha with ha | rfl
    · exact Nat.lt_succ_of_lt (hA a ha)
    · exact Nat.lt_succ_self _
  · intro v hv
    have := hB v hv
    exact ⟨Nat.lt_succ_of_lt this.1, Nat.lt_succ_of_lt this.2⟩
  · intro a ha
    simp only [create_quantum_app, List.mem_append, List.mem_singleton] at ha
    rcases ha with ha | rfl
    · exact hD a ha
    · constructor
      · intro _ v hv
        exact fun hq => Nat.lt_irrefl _ (hq ▸ (hB v hv).2)
      · intro vid hvid
        cases hvid

/-- `update_quantum_app` preserves the invariant: it rewrites only the
content columns of one app row. -/
theorem dbInv_update_quantum_app (db : DB) (app_id user_id : Nat) (app_data : Dict)
    (h : dbInv db) : dbInv (update_quantum_app db app_id user_id app_data).2 := by
  obtain ⟨hA, hB, hC, hD⟩ := h
  unfold update_quantum_app
  cases hfa : findApp db app_id with
  | none => exact ⟨hA, hB, hC, hD⟩
  | some app =>
    dsimp only
    by_cases hu : app.developer_id ≠ user_id
    · rw [if_pos hu]
      exact ⟨hA, hB, hC, hD⟩
    · rw [if_neg hu]
      by_cases he : (app_data.filter (fun p => !p.2.isNull)).isEmpty = true
      · rw [if_pos he]
        exact ⟨hA, hB, hC, hD⟩
      · rw [if_neg he]
        refine ⟨?_, hB, hC, ?_⟩
        · intro a ha
          simp only [List.mem_map] at ha
          obtain ⟨a0, ha0, hmap⟩ := ha
          by_cases hid : a0.id = app_id
          · rw [if_pos hid] at hmap
            rw [← hmap]
            have := hA a0 ha0
            simpa [hid] using (findApp_eq hfa).2 ▸ hA app (findApp_eq hfa).1
          · rw [if_neg hid] at hmap
            rw [← hmap]
            exact hA a0 ha0
        · intro a ha
          simp only [List.mem_map] at ha
          obtain ⟨a0, ha0, hmap⟩ := ha
          by_cases hid : a0.id = app_id
          · rw [if_pos hid] at hmap
            have happ := hD app (findApp_eq hfa).1
            rw [← hmap]
            exact ⟨happ.1, happ.2⟩
          · rw [if_neg hid] at hmap
            rw [← hmap]
            exact hD a0 ha0

/-- `delete_quantum_app` preserves the invariant: the cascade removes
exactly the deleted app and its versions. -/
theorem dbInv_delete_quantum_app (db : DB) (app_id user_id : Nat)
    (h : dbInv db) : dbInv (delete_quantum_app db app_id user_id).2 := by
  obtain ⟨hA, hB, hC, hD⟩ := h
  unfold delete_quantum_app
  cases hfa : findApp db app_id with
  | none => exact ⟨hA, hB, hC, hD⟩
  | some app =>
    dsimp only
    by_cases hu : app.developer_id ≠ user_id
    · rw [if_pos hu]
      exact ⟨hA, hB, hC, hD⟩
    · rw [if_neg hu]
      refine ⟨?_, ?_, ?_, ?_⟩
      · intro a ha
        exact hA a (List.mem_of_mem_filter ha)
      · intro v hv
        exact hB v (List.mem_of_mem_filter hv)
      · exact hC.sublist (List.Sublist.map (fun v : VersionRow => v.id) (List.filter_sublist _))
      · intro a ha
        have ha2 := List.mem_of_mem_filter ha
        have haid : a.id ≠ app_id := by
          have := List.of_mem_filter ha
          simpa using this
        obtain ⟨h1, h2⟩ := hD a ha2
        constructor
        · intro hnone v hv
          exact h1 hnone v (List.mem_of_mem_filter hv)
        · intro vid hvid
          obtain ⟨v, hvmem, hq, hid, hlat, huniq⟩ := h2 vid hvid
          refine ⟨v, ?_, hq, hid, hlat, ?_⟩
          · refine List.mem_filter.mpr ⟨hvmem, ?_⟩
            simp [hq, haid]
          · intro w hw
            exact huniq w (List.mem_of_mem_filter hw)

/-- Mapping an id-preserving function over a version table keeps the ids
distinct. -/
theorem nodup_ids_of_id_preserving (l : List VersionRow) (f : VersionRow → VersionRow)
    (hf : ∀ w, (f w).id = w.id) (h : (l.map (fun w => w.id)).Nodup) :
    ((l.map f).map (fun w => w.id)).Nodup := by
  rw [List.map_map]
  have he : ((fun w : VersionRow => w.id) ∘ f) = fun w : VersionRow => w.id :=
    funext fun w => hf w
  rw [he]
  exact h

/-- `create_app_version` preserves the invariant: the new row gets the
fresh (maximal) id and `is_latest = True`, every other version of the app
is flipped to `False`, and the pointer is moved to the new row. -/
theorem dbInv_create_app_version (db : DB) (app_id : Nat) (version_data : Dict)
    (package_data : Option PackageData) (h : dbInv db) :
    dbInv (create_app_version db app_id version_data package_data).2 := by
  obtain ⟨hA, hB, hC, hD⟩ := h
  unfold create_app_version
  cases hfa : findApp db app_id with
  | none => exact ⟨hA, hB, hC, hD⟩
  | some app =>
    dsimp only
    obtain ⟨happmem, happid⟩ := findApp_eq hfa
    have happlt : app_id < db.nextId := happid ▸ hA app happmem
    refine ⟨?_, ?_, ?_, ?_⟩
    · -- app id bounds
      intro a ha
      simp only [List.mem_map] at ha
      obtain ⟨a0, ha0, hmap⟩ := ha
      have h0 := hA a0 ha0
      by_cases hc : a0.id = app_id
      · rw [if_pos hc] at hmap
        rw [← hmap]
        exact Nat.lt_succ_of_lt h0
      · rw [if_neg hc] at hmap
        rw [← hmap]
        exact Nat.lt_succ_of_lt h0
    · -- version id bounds
      intro w hw
      simp only [List.mem_map, List.mem_append, List.mem_singleton] at hw
      obtain ⟨w0, hw0, hmap⟩ := hw
      have hids : w.id = w0.id ∧ w.quantum_app_id = w0.quantum_app_id := by
        by_cases hc : w0.quantum_app_id = app_id ∧ w0.id ≠ db.nextId
        · rw [if_pos hc] at hmap
          rw [← hmap]
          exact ⟨rfl, rfl⟩
        · rw [if_neg hc] at hmap
          rw [← hmap]
          exact ⟨rfl, rfl⟩
      rcases hw0 with hw0 | rfl
      · exact ⟨hids.1 ▸ Nat.lt_succ_of_lt (hB w0 hw0).1,
          hids.2 ▸ Nat.lt_succ_of_lt (hB w0 hw0).2⟩
      · exact ⟨hids.1 ▸ Nat.lt_succ_self _, hids.2 ▸ Nat.lt_succ_of_lt happlt⟩
    · -- distinct version ids
      apply nodup_ids_of_id_preserving
      · intro w
        by_cases hc : w.quantum_app_id = app_id ∧ w.id ≠ db.nextId
        · rw [if_pos hc]
        · rw [if_neg hc]
      · rw [List.map_append, List.nodup_append]
        refine ⟨hC, List.nodup_singleton _, ?_⟩
        intro x hx hx2
        simp only [List.map_cons, List.map_nil, List.mem_singleton] at hx2
        subst hx2
        simp only [List.mem_map] at hx
        obtain ⟨w0, hw0, hid⟩ := hx
        exact absurd (hB w0 hw0).1 (by rw [hid]; exact Nat.lt_irrefl _)
    · -- latest-version pointer invariant
      have hpres : ∀ w0 : VersionRow,
          ((if w0.quantum_app_id = app_id ∧ w0.id ≠ db.nextId then
            { w0 with is_latest := false } else w0).id = w0.id ∧
           (if w0.quantum_app_id = app_id ∧ w0.id ≠ db.nextId then
            { w0 with is_latest := false } else w0).quantum_app_id =
              w0.quantum_app_id) := by
        intro w0
        by_cases hc : w0.quantum_app_id = app_id ∧ w0.id ≠ db.nextId
        · rw [if_pos hc]; exact ⟨rfl, rfl⟩
        · rw [if_neg hc]; exact ⟨rfl, rfl⟩
      intro a2 ha2
      simp only [List.mem_map] at ha2
      obtain ⟨a0, ha0, hmap⟩ := ha2
      by_cases hid : a0.id = app_id
      · rw [if_pos hid] at hmap
        rw [← hmap]
        constructor
        · intro hnone
          exact absurd hnone (by simp)
        · intro vid hvid
          have hveq : db.nextId = vid := by simpa using hvid
          subst hveq
          refine ⟨{ id := db.nextId, quantum_app_id := app_id,
                      fields := versionFieldsOfData version_data
                        ((dget app.fields "repository_url").getD .null),
                      package_data := package_data, is_latest := true },
            List.mem_map.mpr
              ⟨{ id := db.nextId, quantum_app_id := app_id,
                   fields := versionFieldsOfData version_data
                     ((dget app.fields "repository_url").getD .null),
                   package_data := package_data, is_latest := true },
                List.mem_append_right _ (List.mem_singleton.mpr rfl),
                by rw [if_neg (by simp)]⟩,
            hid.symm, rfl, rfl, ?_⟩
          intro w hw hwq hwne
          simp only [List.mem_map, List.mem_append, List.mem_singleton] at hw
          obtain ⟨w0, hw0, hmapw⟩ := hw
          have hw2 := hmapw ▸ hpres w0
          rcases hw0 with hw0 | rfl
          · have hq0 : w0.quantum_app_id = app_id :=
              (hw2.2.symm.trans hwq).trans hid
            have hne0 : w0.id ≠ db.nextId := fun he => hwne (hw2.1.trans he)
            rw [if_pos ⟨hq0, hne0⟩] at hmapw
            rw [← hmapw]
            exact ⟨rfl, (hB w0 hw0).1⟩
          · rw [if_neg (by simp)] at hmapw
            rw [← hmapw] at hwne
            exact absurd rfl hwne
      · rw [if_neg hid] at hmap
        rw [← hmap]
        obtain ⟨h1, h2⟩ := hD a0 ha0
        constructor
        · intro hnone w hw
          simp only [List.mem_map, List.mem_append, List.mem_singleton] at hw
          obtain ⟨w0, hw0, hmapw⟩ := hw
          have hw2 := hmapw ▸ hpres w0
          rw [hw2.2]
          rcases hw0 with hw0 | rfl
          · exact h1 hnone w0 hw0
          · exact fun hqa => hid hqa.symm
        · intro vid hvid
          obtain ⟨v0, hv0mem, hv0q, hv0id, hv0lat, huniq⟩ := h2 vid hvid
          have hv0cond : ¬(v0.quantum_app_id = app_id ∧ v0.id ≠ db.nextId) :=
            fun hc => hid (hv0q.symm.trans hc.1)
          refine ⟨v0, List.mem_map.mpr ⟨v0, List.mem_append_left _ hv0mem,
            by rw [if_neg hv0cond]⟩, hv0q, hv0id, hv0lat, ?_⟩
          intro w hw hwq hwne
          simp only [List.mem_map, List.mem_append, List.mem_singleton] at hw
          obtain ⟨w0, hw0, hmapw⟩ := hw
          have hw2 := hmapw ▸ hpres w0
          rcases hw0 with hw0 | rfl
          · have hq0 : w0.quantum_app_id = a0.id := hw2.2.symm.trans hwq
            have hc : ¬(w0.quantum_app_id = app_id ∧ w0.id ≠ db.nextId) :=
              fun hc => hid (hq0.symm.trans hc.1)
            rw [if_neg hc] at hmapw
            rw [← hmapw] at hwne hwq ⊢
            exact huniq w0 hw0 hwq hwne
          · rw [if_neg (by simp)] at hmapw
            rw [← hmapw] at hwq
            exact absurd hwq.symm hid

/-- `release_project` preserves the invariant: it creates a fresh app
together with its single version and pointer. -/
theorem dbInv_release_project (db : DB) (user_id project_id : Nat) (rd : ReleaseData)
    (package_data : Option PackageData) (h : dbInv db) :
    dbInv (release_project db user_id project_id rd package_data).2 := by
  obtain ⟨hA, hB, hC, hD⟩ := h
  unfold release_project
  cases hgp : get_project db user_id project_id with
  | none => exact ⟨hA, hB, hC, hD⟩
  | some project =>
    dsimp only
    refine ⟨?_, ?_, ?_, ?_⟩
    · intro a ha
      rcases List.mem_append.mp ha with ha | ha
      · exact Nat.lt_of_lt_of_le (hA a ha) (Nat.le_add_right _ 2)
      · rw [List.mem_singleton.mp ha]
        exact Nat.lt_add_of_pos_right (by decide)
    · intro v hv
      rcases List.mem_append.mp hv with hv | hv
      · exact ⟨Nat.lt_of_lt_of_le (hB v hv).1 (Nat.le_add_right _ 2),
          Nat.lt_of_lt_of_le (hB v hv).2 (Nat.le_add_right _ 2)⟩
      · rw [List.mem_singleton.mp hv]
        exact ⟨Nat.add_lt_add_left (by decide) _,
          Nat.lt_add_of_pos_right (by decide)⟩
    · rw [List.map_append, List.nodup_append]
      refine ⟨hC, List.nodup_singleton _, ?_⟩
      intro x hx hx2
      simp only [List.map_cons, List.map_nil, List.mem_singleton] at hx2
      subst hx2
      simp only [List.mem_map] at hx
      obtain ⟨w0, hw0, hid⟩ := hx
      have := (hB w0 hw0).1
      rw [hid] at this
      exact absurd this (by simp)
    · intro a ha
      rcases List.mem_append.mp ha with ha | ha
      · obtain ⟨h1, h2⟩ := hD a ha
        have halt : a.id < db.nextId := hA a ha
        constructor
        · intro hnone w hw
          rcases List.mem_append.mp hw with hw | hw
          · exact h1 hnone w hw
          · rw [List.mem_singleton.mp hw]
            exact Ne.symm (Nat.ne_of_lt halt)
        · intro vid hvid
          obtain ⟨v0, hv0mem, hv0q, hv0id, hv0lat, huniq⟩ := h2 vid hvid
          refine ⟨v0, List.mem_append_left _ hv0mem, hv0q, hv0id, hv0lat, ?_⟩
          intro w hw hwq hwne
          rcases List.mem_append.mp hw with hw | hw
          · exact huniq w hw hwq hwne
          · rw [List.mem_singleton.mp hw] at hwq
            exact absurd (hwq ▸ halt) (by simp)
      · rw [List.mem_singleton.mp ha]
        constructor
        · intro hnone
          exact absurd hnone (by simp)
        · intro vid hvid
          have hveq : db.nextId + 1 = vid := by simpa using hvid
          subst hveq
          refine ⟨{ id := db.nextId + 1, quantum_app_id := db.nextId,
                      fields :=
                        [("version_number", .str rd.version_number),
                         ("sdk_used", .str rd.sdk_used),
                         ("input_schema", (rd.input_schema).getD .null),
                         ("output_schema", (rd.output_schema).getD .null),
                         ("preferred_platform", jOfOptStr rd.preferred_platform),
                         ("preferred_device_id", jOfOptStr rd.preferred_device_id),
                         ("number_of_qubits", jOfOptInt rd.number_of_qubits),
                         ("package_path", jOfOptStr rd.package_path),
                         ("source_repo", jOfOptStr project.repo),
                         ("status", .str "DRAFT")],
                      package_data := package_data, is_latest := true },
            List.mem_append_right _ (List.mem_singleton.mpr rfl),
            rfl, rfl, rfl, ?_⟩
          intro w hw hwq hwne
          rcases List.mem_append.mp hw with hw | hw
          · have := (hB w hw).2
            rw [hwq] at this
            exact absurd this (by simp)
          · rw [List.mem_singleton.mp hw] at hwne
            exact absurd rfl hwne

/-- A successful `upload_app_package` preserves the invariant: its final
state is `create_app_version` applied after `update_quantum_app` or
`create_quantum_app`. -/
theorem dbInv_upload_app_package {db : DB} {user_id : Nat} {package_data : PackageData}
    {filename : String} {app : AppRow} {db2 : DB} (h : dbInv db)
    (hu : upload_app_package db user_id package_data filename = .ok (app, db2)) :
    dbInv db2 := by
  unfold upload_app_package at hu
  split at hu
  · cases hu
  · split at hu
    · cases hu
    · split at hu
      · cases hu
      · split at hu
        · cases hu
        · split at hu
          · cases hu
          · split at hu
            · split at hu
              · cases hu
              · dsimp only at hu
                split at hu
                · split at hu
                  · cases hu
                  · split at hu
                    · simp only [Except.ok.injEq, Prod.mk.injEq] at hu
                      obtain ⟨-, rfl⟩ := hu
                      exact dbInv_create_app_version _ _ _ _
                        (dbInv_update_quantum_app _ _ _ _ h)
                    · cases hu
                · split at hu
                  · simp only [Except.ok.injEq, Prod.mk.injEq] at hu
                    obtain ⟨-, rfl⟩ := hu
                    exact dbInv_create_app_version _ _ _ _
                      (dbInv_create_quantum_app _ _ _ h)
                  · cases hu
            · cases hu

/-- Every state reachable through the service operations satisfies the
latest-version invariant. -/
theorem reach_dbInv {db : DB} (h : Reach db) : dbInv db := by
  induction h with
  | init =>
    refine ⟨?_, ?_, ?_, ?_⟩ <;> simp
  | sideTables users projects _ ih => exact dbInv_sideTables _ users projects ih
  | appCreate user_id app_data _ ih => exact dbInv_create_quantum_app _ user_id app_data ih
  | appUpdate app_id user_id app_data _ ih =>
    exact dbInv_update_quantum_app _ app_id user_id app_data ih
  | appDelete app_id user_id _ ih => exact dbInv_delete_quantum_app _ app_id user_id ih
  | versionCreate app_id version_data package_data _ ih =>
    exact dbInv_create_app_version _ app_id version_data package_data ih
  | projectRelease user_id project_id rd package_data _ ih =>
    exact dbInv_release_project _ user_id project_id rd package_data ih
  | packageUpload user_id package_data filename app db2 _ hu ih =>
    exact dbInv_upload_app_package ih hu

/-- C3: after every successful `create_app_version` on a state reachable
through the service operations, the newly created version row is stored
with `is_latest = True`, it is the only version of the app flagged
`is_latest`, and the app row's `latest_version_id` points at it; moreover
in every reachable state every app whose `latest_version_id` is set has
exactly one `is_latest` version row, namely the pointed-to one.  This
covers `create_app_version` reached through `upload_app_package`
(constructor `packageUpload` of `Reach`) and the app/version pair created
by `release_project` (constructor `projectRelease`). -/
theorem create_app_version_latest_invariant :
    (∀ (db : DB) (app_id : Nat) (version_data : Dict)
        (package_data : Option PackageData) (v : VersionRow) (db2 : DB),
      Reach db →
      create_app_version db app_id version_data package_data = (some v, db2) →
      v ∈ db2.versions ∧ v.is_latest = true ∧ v.quantum_app_id = app_id ∧
      (∀ a ∈ db2.apps, a.id = app_id → a.latest_version_id = some v.id) ∧
      (∀ w ∈ db2.versions, w.quantum_app_id = app_id → w.is_latest = true → w = v)) ∧
    (∀ db : DB, Reach db → ∀ a ∈ db.apps, ∀ vid, a.latest_version_id = some vid →
      ∃ v ∈ db.versions, v.quantum_app_id = a.id ∧ v.id = vid ∧ v.is_latest = true ∧
        ∀ w ∈ db.versions, w.quantum_app_id = a.id → w.is_latest = true → w = v) := by
  constructor
  · intro db app_id version_data package_data v db2 hr hc
    obtain ⟨hA, hB, hC, hD⟩ := reach_dbInv hr
    unfold create_app_version at hc
    cases hfa : findApp db app_id with
    | none =>
      rw [hfa] at hc
      simp at hc
    | some app =>
      rw [hfa] at hc
      dsimp only at hc
      simp only [Prod.mk.injEq, Option.some.injEq] at hc
      obtain ⟨hveq, hdb2⟩ := hc
      subst hveq
      subst hdb2
      refine ⟨?_, rfl, rfl, ?_, ?_⟩
      · exact List.mem_map.mpr
          ⟨{ id := db.nextId, quantum_app_id := app_id,
               fields := versionFieldsOfData version_data
                 ((dget app.fields "repository_url").getD .null),
               package_data := package_data, is_latest := true },
            List.mem_append_right _ (List.mem_singleton.mpr rfl),
            by rw [if_neg (by simp)]⟩
      · intro a ha haid
        simp only [List.mem_map] at ha
        obtain ⟨a0, ha0, hmap⟩ := ha
        by_cases hid : a0.id = app_id
        · rw [if_pos hid] at hmap
          rw [← hmap]
        · rw [if_neg hid] at hmap
          rw [← hmap] at haid
          exact absurd haid hid
      · intro w hw hwq hwlat
        simp only [List.mem_map, List.mem_append, List.mem_singleton] at hw
        obtain ⟨w0, hw0, hmapw⟩ := hw
        by_cases hcond : w0.quantum_app_id = app_id ∧ w0.id ≠ db.nextId
        · rw [if_pos hcond] at hmapw
          rw [← hmapw] at hwlat
          cases hwlat
        · rw [if_neg hcond] at hmapw
          rcases hw0 with hw0 | rfl
          · rw [← hmapw] at hwq
            have hne : w0.id = db.nextId := by
              by_contra hne
              exact hcond ⟨hwq, hne⟩
            exact absurd ((hB w0 hw0).1) (by rw [hne]; exact Nat.lt_irrefl _)
          · exact hmapw.symm
  · intro db hr a ha vid hvid
    obtain ⟨hA, hB, hC, hD⟩ := reach_dbInv hr
    obtain ⟨v0, hv0mem, hq, hidv, hlat, huniq⟩ := (hD a ha).2 vid hvid
    refine ⟨v0, hv0mem, hq, hidv, hlat, ?_⟩
    intro w hw hwq hwlat
    by_cases hne : w.id = v0.id
    · exact List.inj_on_of_nodup_map hC hw hv0mem hne
    · exact absurd hwlat (by simp [(huniq w hw hwq hne).1])

/-- `update_quantum_app` leaves the version table untouched. -/
theorem versions_update_quantum_app (db : DB) (app_id user_id : Nat) (app_data : Dict) :
    (update_quantum_app db app_id user_id app_data).2.versions = db.versions := by
  unfold update_quantum_app
  cases findApp db app_id with
  | none => rfl
  | some app =>
    dsimp only
    by_cases hu : app.developer_id ≠ user_id
    · rw [if_pos hu]
    · rw [if_neg hu]
      by_cases he : (app_data.filter (fun p => !p.2.isNull)).isEmpty = true
      · rw [if_pos he]
      · rw [if_neg he]

/-- `create_quantum_app` leaves the version table untouched. -/
theorem versions_create_quantum_app (db : DB) (user_id : Nat) (app_data : Dict) :
    (create_quantum_app db user_id app_data).2.versions = db.versions := rfl

/-- `create_app_version` keeps every pre-existing version row: the row is
still found under its id with the same `quantum_app_id`, content fields
and package bytes (only the `is_latest` relationship flag may flip). -/
theorem findVersion_create_app_version (db : DB) (app_id : Nat) (version_data : Dict)
    (package_data : Option PackageData) (vid : Nat) (v : VersionRow)
    (h : findVersion db vid = some v) :
    ∃ v', findVersion (create_app_version db app_id version_data package_data).2 vid
        = some v' ∧ v'.id = v.id ∧ versionMeta v' = versionMeta v := by
  unfold create_app_version
  cases hfa : findApp db app_id with
  | none => exact ⟨v, h, rfl, rfl⟩
  | some app =>
    dsimp only
    refine ⟨(fun w : VersionRow =>
        if w.quantum_app_id = app_id ∧ w.id ≠ db.nextId then
          { w with is_latest := false } else w) v, ?_, ?_, ?_⟩
    · unfold findVersion
      dsimp only
      rw [List.find?_map]
      have hfun : ((fun w : VersionRow => w.id == vid) ∘ (fun w : VersionRow =>
          if w.quantum_app_id = app_id ∧ w.id ≠ db.nextId then
            { w with is_latest := false } else w)) =
          (fun w : VersionRow => w.id == vid) := by
        funext w
        by_cases hc : w.quantum_app_id = app_id ∧ w.id ≠ db.nextId
        · simp only [Function.comp_apply, if_pos hc]
        · simp only [Function.comp_apply, if_neg hc]
      rw [hfun, List.find?_append]
      unfold findVersion at h
      rw [h]
      rfl
    · by_cases hc : v.quantum_app_id = app_id ∧ v.id ≠ db.nextId
      · dsimp only
        rw [if_pos hc]
      · dsimp only
        rw [if_neg hc]
    · by_cases hc : v.quantum_app_id = app_id ∧ v.id ≠ db.nextId
      · dsimp only
        rw [if_pos hc]
        rfl
      · dsimp only
        rw [if_neg hc]

/-- `release_project` keeps every pre-existing version row unchanged. -/
theorem findVersion_release_project (db : DB) (user_id project_id : Nat) (rd : ReleaseData)
    (package_data : Option PackageData) (vid : Nat) (v : VersionRow)
    (h : findVersion db vid = some v) :
    findVersion (release_project db user_id project_id rd package_data).2 vid = some v := by
  unfold release_project
  cases get_project db user_id project_id with
  | none => exact h
  | some project =>
    dsimp only
    unfold findVersion at h ⊢
    dsimp only
    rw [List.find?_append, h]
    rfl

/-- A successful `upload_app_package` keeps every pre-existing version
row up to the `is_latest` flag. -/
theorem findVersion_upload_app_package {db : DB} {user_id : Nat}
    {package_data : PackageData} {filename : String} {app : AppRow} {db2 : DB}
    (hu : upload_app_package db user_id package_data filename = .ok (app, db2))
    (vid : Nat) (v : VersionRow) (h : findVersion db vid = some v) :
    ∃ v', findVersion db2 vid = some v' ∧ v'.id = v.id ∧
      versionMeta v' = versionMeta v := by
  unfold upload_app_package at hu
  split at hu
  · cases hu
  · split at hu
    · cases hu
    · split at hu
      · cases hu
      · split at hu
        · cases hu
        · split at hu
          · cases hu
          · split at hu
            · split at hu
              · cases hu
              · dsimp only at hu
                split at hu
                · split at hu
                  · cases hu
                  · split at hu
                    · simp only [Except.ok.injEq, Prod.mk.injEq] at hu
                      obtain ⟨-, rfl⟩ := hu
                      refine findVersion_create_app_version _ _ _ _ _ _ ?_
                      unfold findVersion
                      rw [versions_update_quantum_app]
                      exact h
                    · cases hu
                · split at hu
                  · simp only [Except.ok.injEq, Prod.mk.injEq] at hu
                    obtain ⟨-, rfl⟩ := hu
                    exact findVersion_create_app_version _ _ _ _ _ _ h
                  · cases hu
            · cases hu

/-- C6: app versions are immutable once created.  For every existing
version row, each later service operation — updating an app, creating
another version for the same app, releasing a project, or uploading a
package — keeps the row stored under its id with unchanged
`quantum_app_id`, content fields and package bytes (`versionMeta`); the
sole exception, outside the claim's scope of package and metadata
columns, is the `is_latest` relationship flag, which `create_app_version`
may flip to `False`. -/
theorem app_version_rows_immutable :
    (∀ (db : DB) (app_id user_id : Nat) (app_data : Dict) (vid : Nat) (v : VersionRow),
      findVersion db vid = some v →
      findVersion (update_quantum_app db app_id user_id app_data).2 vid = some v) ∧
    (∀ (db : DB) (app_id : Nat) (version_data : Dict) (package_data : Option PackageData)
        (vid : Nat) (v : VersionRow),
      findVersion db vid = some v →
      ∃ v', findVersion (create_app_version db app_id version_data package_data).2 vid
          = some v' ∧ v'.id = v.id ∧ versionMeta v' = versionMeta v) ∧
    (∀ (db : DB) (user_id project_id : Nat) (rd : ReleaseData)
        (package_data : Option PackageData) (vid : Nat) (v : VersionRow),
      findVersion db vid = some v →
      findVersion (release_project db user_id project_id rd package_data).2 vid = some v) ∧
    (∀ (db : DB) (user_id : Nat) (package_data : PackageData) (filename : String)
        (app : AppRow) (db2 : DB) (vid : Nat) (v : VersionRow),
      upload_app_package db user_id package_data filename = .ok (app, db2) →
      findVersion db vid = some v →
      ∃ v', findVersion db2 vid = some v' ∧ v'.id = v.id ∧
        versionMeta v' = versionMeta v) := by
  refine ⟨?_, ?_, ?_, ?_⟩
  · intro db app_id user_id app_data vid v h
    unfold findVersion
    rw [versions_update_quantum_app]
    exact h
  · intro db app_id version_data package_data vid v h
    exact findVersion_create_app_version db app_id version_data package_data vid v h
  · intro db user_id project_id rd package_data vid v h
    exact findVersion_release_project db user_id project_id rd package_data vid v h
  · intro db user_id package_data filename app db2 vid v hu h
    exact findVersion_upload_app_package hu vid v h


end QHub
